import Mathlib

/-!
# NFD `PrivilegeHelper` (daemon/common/privilege-helper.cpp)

A shallow embedding of `PrivilegeHelper::initialize`, `PrivilegeHelper::drop` and
`PrivilegeHelper::raise`.

* The process-wide statics `s_normalUid`, `s_normalGid`, `s_privilegedUid`,
  `s_privilegedGid` and the kernel's effective ids are fields of an explicit `State`.
* The operating system is an `Env` of oracles: what `sysconf` reports, what each
  `getgrnam_r` / `getpwnam_r` call answers, and whether each `setegid` / `seteuid`
  call is permitted.  Every oracle sees the whole state, call history included, so
  an answer may depend on everything that happened before.
* Every library call that the code performs is appended to `State.trace`, together
  with its return value and the effective identity right after it.
* `throw Error(...)` is the result `Result.threw`; the state reached so far is kept.
* The `while (errorCode == ERANGE)` loop takes a bound on its iterations; a loop
  that is still going when the bound is reached yields `Result.running`.
* `size_t` and `long` are those of an LP64 platform: `size_t` arithmetic is taken
  modulo `2 ^ 64`.
* Memory for a buffer within the 16 KiB cap is taken to be available, so a `resize`
  never fails. The first buffer has the size `sysconf` reported: above the cap it is
  created only if the platform can allocate it (`Env.allocOk`), otherwise
  `std::vector` throws `std::bad_alloc`, and above `max_size()` it throws
  `std::length_error`.
-/

namespace nfd

/-! ## Data model -/

/-- The library calls performed by `PrivilegeHelper` that the model records. -/
inductive Call where
  | getgrnam_r (name : String) (bufSize : Nat)
  | getpwnam_r (name : String) (bufSize : Nat)
  | setegid (gid : Nat)
  | seteuid (uid : Nat)
  deriving DecidableEq, Repr

/-- One recorded call: the call, its return value, and the effective user and group
id of the process right after it. -/
structure Event where
  call : Call
  ret : Int
  euid : Nat
  egid : Nat
  deriving DecidableEq, Repr

/-- The process: the effective ids held by the kernel (`::geteuid()`, `::getegid()`),
the four statics of `PrivilegeHelper`, and the calls performed so far (oldest first). -/
structure State where
  euid : Nat
  egid : Nat
  s_normalUid : Nat
  s_normalGid : Nat
  s_privilegedUid : Nat
  s_privilegedGid : Nat
  trace : List Event
  deriving DecidableEq, Repr

/-- The static initialisers of lines 37-41: all four statics are the effective ids
the process starts with. -/
def State.atStart (uid gid : Nat) : State :=
  { euid := uid, egid := gid
    s_normalUid := uid, s_normalGid := gid
    s_privilegedUid := uid, s_privilegedGid := gid
    trace := [] }

/-- What a `getgrnam_r` / `getpwnam_r` call hands back: its return value, and the
result pointer, `none` for `nullptr` and `some id` for an entry whose `gr_gid` /
`pw_uid` is `id`. -/
structure LookupReply where
  errorCode : Int
  result : Option Nat
  deriving DecidableEq, Repr

/-- The platform. `setegidOk s gid` tells whether `::setegid(gid)` called in state `s`
succeeds (returns 0 and changes the effective group id); a call that is refused
returns -1 and changes nothing. -/
structure Env where
  HAVE_PRIVILEGE_DROP_AND_ELEVATE : Bool
  sysconf_SC_GETGR_R_SIZE_MAX : Int
  sysconf_SC_GETPW_R_SIZE_MAX : Int
  getgrnam_r : State → String → Nat → LookupReply
  getpwnam_r : State → String → Nat → LookupReply
  setegidOk : State → Nat → Bool
  seteuidOk : State → Nat → Bool
  /-- Whether an allocation of the given number of bytes, above the 16 KiB cap,
  succeeds in the given state. -/
  allocOk : State → Nat → Bool := fun _ _ => true

/-- The messages of the `PrivilegeHelper::Error`s thrown in the source, and the
`std::length_error` and `std::bad_alloc` of the `std::vector` constructor. -/
inductive Error where
  /-- Message "Cannot allocate large enough buffer for struct group" (line 74). -/
  | groupBuffer
  /-- Message "Failed to get gid for" followed by the quoted group name (line 82). -/
  | getGid (groupName : String)
  /-- Message "Cannot allocate large enough buffer for struct passwd" (line 102). -/
  | passwdBuffer
  /-- Message "Failed to get uid for" followed by the quoted user name (line 110). -/
  | getUid (userName : String)
  /-- Message "Dropping and raising privileges is not supported on this platform" (line 116). -/
  | notSupported
  /-- Message "Failed to drop to effective gid=" and the id (line 130). -/
  | dropGid (gid : Nat)
  /-- Message "Failed to drop to effective uid=" and the id (line 134). -/
  | dropUid (uid : Nat)
  /-- Message "Failed to elevate to effective uid=" and the id (line 151). -/
  | elevateUid (uid : Nat)
  /-- Message "Failed to elevate to effective gid=" and the id (line 155). -/
  | elevateGid (gid : Nat)
  /-- The exception of `std::vector<char>(n)` for `n` above `max_size()` -/
  | length_error
  /-- The exception of `std::vector<char>(n)` when `n` bytes cannot be allocated -/
  | bad_alloc
  deriving DecidableEq, Repr

/-- The error kinds of the specification (section 7). -/
inductive ErrorKind where
  | BufferAllocationError
  | LookupError
  | UnsupportedPlatformError
  | SyscallError
  | other
  deriving DecidableEq, Repr

/-- The kind of each thrown error, by what the throwing statement reports. -/
def Error.kind : Error → ErrorKind
  | .groupBuffer => .BufferAllocationError
  | .passwdBuffer => .BufferAllocationError
  | .getGid _ => .LookupError
  | .getUid _ => .LookupError
  | .notSupported => .UnsupportedPlatformError
  | .dropGid _ => .SyscallError
  | .dropUid _ => .SyscallError
  | .elevateUid _ => .SyscallError
  | .elevateGid _ => .SyscallError
  | .length_error => .other
  | .bad_alloc => .other

/-- How a piece of code ends: it returns a value, it throws, or its loop is still
running when the iteration bound is used up. -/
inductive Result (α : Type) where
  | ok (a : α)
  | threw (e : Error)
  | running
  deriving DecidableEq, Repr

/-! ## Constants -/

/-- Line 48: `MAX_GROUP_BUFFER_SIZE`, 16 KiB. -/
def MAX_GROUP_BUFFER_SIZE : Nat := 16384
/-- Line 49: `MAX_PASSWD_BUFFER_SIZE`. -/
def MAX_PASSWD_BUFFER_SIZE : Nat := 16384
/-- Line 51: `FALLBACK_GROUP_BUFFER_SIZE`. -/
def FALLBACK_GROUP_BUFFER_SIZE : Nat := 1024
/-- Line 52: `FALLBACK_PASSWD_BUFFER_SIZE`. -/
def FALLBACK_PASSWD_BUFFER_SIZE : Nat := 1024

/-- The value of `ERANGE` in `<errno.h>` (34 on Linux, macOS and the BSDs). -/
def ERANGE : Int := 34

/-- One more than the largest `size_t`. -/
def SIZE_T_MOD : Nat := 2 ^ 64

/-- The `max_size()` of `std::vector<char>`: `PTRDIFF_MAX`. -/
def VECTOR_MAX_SIZE : Nat := 2 ^ 63 - 1

/-- The conversion `static_cast<size_t>(x)` of a `long`. -/
def castSizeT (x : Int) : Nat := (x % (SIZE_T_MOD : Int)).toNat

/-! ## The two lookups

The group block (lines 59-85) and the passwd block (lines 87-113) are the same
code over two databases; `Db` selects the database. -/

/-- Which database a lookup block reads. -/
inductive Db where
  | group
  | passwd
  deriving DecidableEq, Repr

/-- `MAX_GROUP_BUFFER_SIZE` or `MAX_PASSWD_BUFFER_SIZE`. -/
def Db.MAX_BUFFER_SIZE : Db → Nat
  | .group => MAX_GROUP_BUFFER_SIZE
  | .passwd => MAX_PASSWD_BUFFER_SIZE

/-- `FALLBACK_GROUP_BUFFER_SIZE` or `FALLBACK_PASSWD_BUFFER_SIZE`. -/
def Db.FALLBACK_BUFFER_SIZE : Db → Nat
  | .group => FALLBACK_GROUP_BUFFER_SIZE
  | .passwd => FALLBACK_PASSWD_BUFFER_SIZE

/-- `::sysconf(_SC_GETGR_R_SIZE_MAX)` or `::sysconf(_SC_GETPW_R_SIZE_MAX)`. -/
def Env.sysconf (env : Env) : Db → Int
  | .group => env.sysconf_SC_GETGR_R_SIZE_MAX
  | .passwd => env.sysconf_SC_GETPW_R_SIZE_MAX

/-- The answer of `getgrnam_r` or `getpwnam_r`. -/
def Env.getnam_r (env : Env) : Db → State → String → Nat → LookupReply
  | .group => env.getgrnam_r
  | .passwd => env.getpwnam_r

/-- The recorded form of a lookup call. -/
def Db.call : Db → String → Nat → Call
  | .group => Call.getgrnam_r
  | .passwd => Call.getpwnam_r

/-- The error of lines 74 / 102. -/
def Db.bufferError : Db → Error
  | .group => Error.groupBuffer
  | .passwd => Error.passwdBuffer

/-- The error of lines 82 / 110. -/
def Db.lookupError : Db → String → Error
  | .group => Error.getGid
  | .passwd => Error.getUid

/-- One call `getgrnam_r(name, &group, buffer.data(), buffer.size(), &result)` (or
`getpwnam_r`) with a buffer of `bufSize` bytes: the call is recorded, no id changes. -/
def getnam_r (env : Env) (db : Db) (name : String) (bufSize : Nat) (s : State) :
    State × LookupReply :=
  let reply := env.getnam_r db s name bufSize
  ({ s with trace := s.trace ++ [⟨db.call name bufSize, reply.errorCode, s.euid, s.egid⟩] },
    reply)

/-- Lines 72-79 (group) and 100-107 (passwd): the loop
`while (errorCode == ERANGE) { if (size * 2 > MAX) throw; resize(size * 2); lookup }`,
run for at most `fuel` iterations from a buffer of `size` bytes and the reply
`reply` of the previous lookup. -/
def growLoop (env : Env) (db : Db) (name : String) :
    Nat → Nat → LookupReply → State → State × Result LookupReply
  | fuel, size, reply, s =>
    if reply.errorCode = ERANGE then
      if size * 2 % SIZE_T_MOD > db.MAX_BUFFER_SIZE then
        (s, .threw db.bufferError)
      else
        match fuel with
        | 0 => (s, .running)
        | fuel + 1 =>
          let size' := size * 2 % SIZE_T_MOD
          let next := getnam_r env db name size' s
          growLoop env db name fuel size' next.2 next.1
    else
      (s, .ok reply)

/-- The starting buffer size of lines 60-65 / 88-93: what `sysconf` reports, the
fallback when it reports -1, converted to `size_t`. -/
def startSize (env : Env) (db : Db) : Nat :=
  castSizeT (if env.sysconf db = -1 then (db.FALLBACK_BUFFER_SIZE : Int) else env.sysconf db)

/-- Lines 81-84 (group) and 109-112 (passwd): after the loop,
`if (errorCode != 0 || !result) throw Error("Failed to get ...")`, and the id read
from the entry otherwise. A loop that threw or is still running is passed through. -/
def checkReply (db : Db) (name : String) : State × Result LookupReply → State × Result Nat
  | (s, .ok reply) =>
    if reply.errorCode ≠ 0 then (s, .threw (db.lookupError name))
    else
      match reply.result with
      | none => (s, .threw (db.lookupError name))
      | some id => (s, .ok id)
  | (s, .threw e) => (s, .threw e)
  | (s, .running) => (s, .running)

/-- The construction `std::vector<char> buffer(n)` of lines 65 / 93, as the exception
it throws, if any: `std::length_error` for `n` above `max_size()`, `std::bad_alloc`
for `n` above the cap when the platform cannot allocate that much. -/
def newBuffer (env : Env) (db : Db) (n : Nat) (s : State) : Option Error :=
  if n > VECTOR_MAX_SIZE then some .length_error
  else if n > db.MAX_BUFFER_SIZE ∧ env.allocOk s n = false then some .bad_alloc
  else none

/-- Lines 60-82 (group) and 88-110 (passwd): the buffer is created, the first lookup
is made, the loop runs, and the final reply is checked. The value is the `gr_gid` /
`pw_uid` found. -/
def resolve (fuel : Nat) (env : Env) (db : Db) (name : String) (s : State) :
    State × Result Nat :=
  let size := startSize env db
  match newBuffer env db size s with
  | some err => (s, .threw err)
  | none =>
    let first := getnam_r env db name size s
    checkReply db name (growLoop env db name fuel size first.2 first.1)

/-! ## The operations -/

/-- `PrivilegeHelper::initialize(userName, groupName)`, lines 44-119, with `fuel`
bounding the iterations of each of its two loops. -/
def PrivilegeHelper.initialize (fuel : Nat) (env : Env) (userName groupName : String)
    (s : State) : State × Result Unit :=
  if env.HAVE_PRIVILEGE_DROP_AND_ELEVATE then
    let afterGroup : State × Result Unit :=
      if !groupName.isEmpty then
        match resolve fuel env .group groupName s with
        | (s', .ok gid) => ({ s' with s_normalGid := gid }, .ok ())
        | (s', .threw e) => (s', .threw e)
        | (s', .running) => (s', .running)
      else (s, .ok ())
    match afterGroup with
    | (s1, .ok ()) =>
      if !userName.isEmpty then
        match resolve fuel env .passwd userName s1 with
        | (s', .ok uid) => ({ s' with s_normalUid := uid }, .ok ())
        | (s', .threw e) => (s', .threw e)
        | (s', .running) => (s', .running)
      else (s1, .ok ())
    | (s1, .threw e) => (s1, .threw e)
    | (s1, .running) => (s1, .running)
  else
    if !userName.isEmpty || !groupName.isEmpty then (s, .threw .notSupported)
    else (s, .ok ())

/-- The call `::setegid(gid)`: returns 0 and sets the effective group id when the
platform permits it, returns -1 and changes no id otherwise. -/
def setegid (env : Env) (gid : Nat) (s : State) : State × Int :=
  if env.setegidOk s gid then
    ({ s with egid := gid, trace := s.trace ++ [⟨.setegid gid, 0, s.euid, gid⟩] }, 0)
  else
    ({ s with trace := s.trace ++ [⟨.setegid gid, -1, s.euid, s.egid⟩] }, -1)

/-- The call `::seteuid(uid)`: returns 0 and sets the effective user id when the
platform permits it, returns -1 and changes no id otherwise. -/
def seteuid (env : Env) (uid : Nat) (s : State) : State × Int :=
  if env.seteuidOk s uid then
    ({ s with euid := uid, trace := s.trace ++ [⟨.seteuid uid, 0, uid, s.egid⟩] }, 0)
  else
    ({ s with trace := s.trace ++ [⟨.seteuid uid, -1, s.euid, s.egid⟩] }, -1)

/-- `PrivilegeHelper::drop()`, lines 121-140. -/
def PrivilegeHelper.drop (env : Env) (s : State) : State × Result Unit :=
  if env.HAVE_PRIVILEGE_DROP_AND_ELEVATE then
    if s.euid = s.s_normalUid ∧ s.egid = s.s_normalGid then
      (s, .ok ())
    else
      let g := setegid env s.s_normalGid s
      if g.2 ≠ 0 then
        (g.1, .threw (.dropGid s.s_normalGid))
      else
        let u := seteuid env g.1.s_normalUid g.1
        if u.2 ≠ 0 then
          (u.1, .threw (.dropUid g.1.s_normalUid))
        else
          (u.1, .ok ())
  else
    (s, .ok ())

/-- `PrivilegeHelper::raise()`, lines 142-161. -/
def PrivilegeHelper.raise (env : Env) (s : State) : State × Result Unit :=
  if env.HAVE_PRIVILEGE_DROP_AND_ELEVATE then
    if s.euid = s.s_privilegedUid ∧ s.egid = s.s_privilegedGid then
      (s, .ok ())
    else
      let u := seteuid env s.s_privilegedUid s
      if u.2 ≠ 0 then
        (u.1, .threw (.elevateUid s.s_privilegedUid))
      else
        let g := setegid env u.1.s_privilegedGid u.1
        if g.2 ≠ 0 then
          (g.1, .threw (.elevateGid u.1.s_privilegedGid))
        else
          (g.1, .ok ())
  else
    (s, .ok ())

/-! ## Sequences of transitions -/

/-- A call of one of the two transition operations. -/
inductive Op where
  | drop
  | raise
  deriving DecidableEq, Repr

/-- The call an `Op` stands for. -/
def Op.run (env : Env) : Op → State → State × Result Unit
  | .drop => PrivilegeHelper.drop env
  | .raise => PrivilegeHelper.raise env

/-- The state after a sequence of `drop()` / `raise()` calls, each made in the state
its predecessor left, whether that one returned or threw. -/
def runOps (env : Env) : List Op → State → State
  | [], s => s
  | op :: ops, s => runOps env ops (op.run env s).1

/-- The effective identities the process is meant to hold between and during
transitions: the privileged pair, the normal pair, and the privileged user with the
normal group. -/
def Allowed (s : State) (uid gid : Nat) : Prop :=
  (uid = s.s_privilegedUid ∧ gid = s.s_privilegedGid) ∨
  (uid = s.s_privilegedUid ∧ gid = s.s_normalGid) ∨
  (uid = s.s_normalUid ∧ gid = s.s_normalGid)

/-! ## Sample platforms -/

/-- A platform with privilege transitions on which `sysconf` reports 1024 bytes, the
name "daemon" is user 1 and group 1, no other name exists, and every change of an
effective id is permitted. -/
def daemonEnv : Env :=
  { HAVE_PRIVILEGE_DROP_AND_ELEVATE := true
    sysconf_SC_GETGR_R_SIZE_MAX := 1024
    sysconf_SC_GETPW_R_SIZE_MAX := 1024
    getgrnam_r := fun _ name _ => if name = "daemon" then ⟨0, some 1⟩ else ⟨0, none⟩
    getpwnam_r := fun _ name _ => if name = "daemon" then ⟨0, some 1⟩ else ⟨0, none⟩
    setegidOk := fun _ _ => true
    seteuidOk := fun _ _ => true }

/-- The platform `daemonEnv` with other permissions for `setegid` and `seteuid`. -/
def daemonEnvWith (gidOk uidOk : State → Nat → Bool) : Env :=
  { daemonEnv with setegidOk := gidOk, seteuidOk := uidOk }

/-- A process started as root whose normal identity is user 1, group 1. -/
def rootState : State :=
  { State.atStart 0 0 with s_normalUid := 1, s_normalGid := 1 }

/-- A platform on which `sysconf` reports `size` for both databases, a lookup answers
`ERANGE` for a buffer below `threshold` bytes and finds the entry with id `id`
otherwise, and every change of an effective id is permitted. -/
def thresholdEnv (size : Int) (threshold id : Nat) : Env :=
  { HAVE_PRIVILEGE_DROP_AND_ELEVATE := true
    sysconf_SC_GETGR_R_SIZE_MAX := size
    sysconf_SC_GETPW_R_SIZE_MAX := size
    getgrnam_r := fun _ _ z => if z < threshold then ⟨ERANGE, none⟩ else ⟨0, some id⟩
    getpwnam_r := fun _ _ z => if z < threshold then ⟨ERANGE, none⟩ else ⟨0, some id⟩
    setegidOk := fun _ _ => true
    seteuidOk := fun _ _ => true }

/-- A platform on which `sysconf` reports `size` for both databases and every lookup
answers `ERANGE`, whatever the buffer. -/
def alwaysErangeEnv (size : Int) : Env :=
  { HAVE_PRIVILEGE_DROP_AND_ELEVATE := true
    sysconf_SC_GETGR_R_SIZE_MAX := size
    sysconf_SC_GETPW_R_SIZE_MAX := size
    getgrnam_r := fun _ _ _ => ⟨ERANGE, none⟩
    getpwnam_r := fun _ _ _ => ⟨ERANGE, none⟩
    setegidOk := fun _ _ => true
    seteuidOk := fun _ _ => true }

/-- A platform without privilege transitions (`HAVE_PRIVILEGE_DROP_AND_ELEVATE` not
defined); the other fields are those of `daemonEnv` and are never consulted. -/
def unsupportedEnv : Env :=
  { daemonEnv with HAVE_PRIVILEGE_DROP_AND_ELEVATE := false }

/-- A call of one of the three operations of `PrivilegeHelper`; a call of `initialize`
carries its two arguments and the bound on the iterations of its loops. -/
inductive Action where
  | init (fuel : Nat) (userName groupName : String)
  | drop
  | raise
  deriving DecidableEq, Repr

/-- The call an `Action` stands for. -/
def Action.run (env : Env) : Action → State → State × Result Unit
  | .init fuel userName groupName => PrivilegeHelper.initialize fuel env userName groupName
  | .drop => PrivilegeHelper.drop env
  | .raise => PrivilegeHelper.raise env

/-- The state after a sequence of calls, each made in the state its predecessor left,
whether that one returned, threw or is still running. -/
def runActions (env : Env) : List Action → State → State
  | [], s => s
  | a :: rest, s => runActions env rest (a.run env s).1

/-- A platform on which `sysconf` reports `size` for both databases and no name
exists: a lookup answers `ERANGE` for a buffer below `threshold` bytes and 0 with a
null result otherwise. -/
def noEntryEnv (size : Int) (threshold : Nat) : Env :=
  { HAVE_PRIVILEGE_DROP_AND_ELEVATE := true
    sysconf_SC_GETGR_R_SIZE_MAX := size
    sysconf_SC_GETPW_R_SIZE_MAX := size
    getgrnam_r := fun _ _ z => if z < threshold then ⟨ERANGE, none⟩ else ⟨0, none⟩
    getpwnam_r := fun _ _ z => if z < threshold then ⟨ERANGE, none⟩ else ⟨0, none⟩
    setegidOk := fun _ _ => true
    seteuidOk := fun _ _ => true }

/-! ## Basic facts about the two set-id calls -/

theorem setegid_permitted (env : Env) (gid : Nat) (s : State)
    (h : env.setegidOk s gid = true) :
    setegid env gid s =
      ({ s with egid := gid, trace := s.trace ++ [⟨.setegid gid, 0, s.euid, gid⟩] }, 0) := by
  simp [setegid, h]

theorem setegid_refused (env : Env) (gid : Nat) (s : State)
    (h : env.setegidOk s gid = false) :
    setegid env gid s =
      ({ s with trace := s.trace ++ [⟨.setegid gid, -1, s.euid, s.egid⟩] }, -1) := by
  simp [setegid, h]

theorem seteuid_permitted (env : Env) (uid : Nat) (s : State)
    (h : env.seteuidOk s uid = true) :
    seteuid env uid s =
      ({ s with euid := uid, trace := s.trace ++ [⟨.seteuid uid, 0, uid, s.egid⟩] }, 0) := by
  simp [seteuid, h]

theorem seteuid_refused (env : Env) (uid : Nat) (s : State)
    (h : env.seteuidOk s uid = false) :
    seteuid env uid s =
      ({ s with trace := s.trace ++ [⟨.seteuid uid, -1, s.euid, s.egid⟩] }, -1) := by
  simp [seteuid, h]

/-! ## The paths through `drop` and `raise` -/

theorem drop_unsupported (env : Env) (s : State)
    (hs : env.HAVE_PRIVILEGE_DROP_AND_ELEVATE = false) :
    PrivilegeHelper.drop env s = (s, Result.ok ()) := by
  simp [PrivilegeHelper.drop, hs]

theorem drop_noop (env : Env) (s : State)
    (hu : s.euid = s.s_normalUid) (hg : s.egid = s.s_normalGid) :
    PrivilegeHelper.drop env s = (s, Result.ok ()) := by
  simp [PrivilegeHelper.drop, hu, hg]

theorem drop_gid_refused (env : Env) (s : State)
    (hs : env.HAVE_PRIVILEGE_DROP_AND_ELEVATE = true)
    (hn : ¬ (s.euid = s.s_normalUid ∧ s.egid = s.s_normalGid))
    (hg : env.setegidOk s s.s_normalGid = false) :
    PrivilegeHelper.drop env s =
      ({ s with trace := s.trace ++ [⟨.setegid s.s_normalGid, -1, s.euid, s.egid⟩] },
        Result.threw (.dropGid s.s_normalGid)) := by
  simp [PrivilegeHelper.drop, hs, hn, setegid_refused env _ s hg]

theorem drop_uid_refused (env : Env) (s : State)
    (hs : env.HAVE_PRIVILEGE_DROP_AND_ELEVATE = true)
    (hn : ¬ (s.euid = s.s_normalUid ∧ s.egid = s.s_normalGid))
    (hg : env.setegidOk s s.s_normalGid = true)
    (hu : env.seteuidOk (setegid env s.s_normalGid s).1 s.s_normalUid = false) :
    PrivilegeHelper.drop env s =
      ({ s with
          egid := s.s_normalGid
          trace := s.trace ++ [⟨.setegid s.s_normalGid, 0, s.euid, s.s_normalGid⟩,
            ⟨.seteuid s.s_normalUid, -1, s.euid, s.s_normalGid⟩] },
        Result.threw (.dropUid s.s_normalUid)) := by
  rw [setegid_permitted env _ s hg] at hu
  simp [PrivilegeHelper.drop, hs, hn, setegid_permitted env _ s hg, seteuid_refused env _ _ hu]

theorem drop_permitted (env : Env) (s : State)
    (hs : env.HAVE_PRIVILEGE_DROP_AND_ELEVATE = true)
    (hn : ¬ (s.euid = s.s_normalUid ∧ s.egid = s.s_normalGid))
    (hg : env.setegidOk s s.s_normalGid = true)
    (hu : env.seteuidOk (setegid env s.s_normalGid s).1 s.s_normalUid = true) :
    PrivilegeHelper.drop env s =
      ({ s with
          euid := s.s_normalUid
          egid := s.s_normalGid
          trace := s.trace ++ [⟨.setegid s.s_normalGid, 0, s.euid, s.s_normalGid⟩,
            ⟨.seteuid s.s_normalUid, 0, s.s_normalUid, s.s_normalGid⟩] },
        Result.ok ()) := by
  rw [setegid_permitted env _ s hg] at hu
  simp [PrivilegeHelper.drop, hs, hn, setegid_permitted env _ s hg, seteuid_permitted env _ _ hu]

theorem raise_unsupported (env : Env) (s : State)
    (hs : env.HAVE_PRIVILEGE_DROP_AND_ELEVATE = false) :
    PrivilegeHelper.raise env s = (s, Result.ok ()) := by
  simp [PrivilegeHelper.raise, hs]

theorem raise_noop (env : Env) (s : State)
    (hu : s.euid = s.s_privilegedUid) (hg : s.egid = s.s_privilegedGid) :
    PrivilegeHelper.raise env s = (s, Result.ok ()) := by
  simp [PrivilegeHelper.raise, hu, hg]

theorem raise_uid_refused (env : Env) (s : State)
    (hs : env.HAVE_PRIVILEGE_DROP_AND_ELEVATE = true)
    (hn : ¬ (s.euid = s.s_privilegedUid ∧ s.egid = s.s_privilegedGid))
    (hu : env.seteuidOk s s.s_privilegedUid = false) :
    PrivilegeHelper.raise env s =
      ({ s with trace := s.trace ++ [⟨.seteuid s.s_privilegedUid, -1, s.euid, s.egid⟩] },
        Result.threw (.elevateUid s.s_privilegedUid)) := by
  simp [PrivilegeHelper.raise, hs, hn, seteuid_refused env _ s hu]

theorem raise_gid_refused (env : Env) (s : State)
    (hs : env.HAVE_PRIVILEGE_DROP_AND_ELEVATE = true)
    (hn : ¬ (s.euid = s.s_privilegedUid ∧ s.egid = s.s_privilegedGid))
    (hu : env.seteuidOk s s.s_privilegedUid = true)
    (hg : env.setegidOk (seteuid env s.s_privilegedUid s).1 s.s_privilegedGid = false) :
    PrivilegeHelper.raise env s =
      ({ s with
          euid := s.s_privilegedUid
          trace := s.trace ++ [⟨.seteuid s.s_privilegedUid, 0, s.s_privilegedUid, s.egid⟩,
            ⟨.setegid s.s_privilegedGid, -1, s.s_privilegedUid, s.egid⟩] },
        Result.threw (.elevateGid s.s_privilegedGid)) := by
  rw [seteuid_permitted env _ s hu] at hg
  simp [PrivilegeHelper.raise, hs, hn, seteuid_permitted env _ s hu, setegid_refused env _ _ hg]

theorem raise_permitted (env : Env) (s : State)
    (hs : env.HAVE_PRIVILEGE_DROP_AND_ELEVATE = true)
    (hn : ¬ (s.euid = s.s_privilegedUid ∧ s.egid = s.s_privilegedGid))
    (hu : env.seteuidOk s s.s_privilegedUid = true)
    (hg : env.setegidOk (seteuid env s.s_privilegedUid s).1 s.s_privilegedGid = true) :
    PrivilegeHelper.raise env s =
      ({ s with
          euid := s.s_privilegedUid
          egid := s.s_privilegedGid
          trace := s.trace ++ [⟨.seteuid s.s_privilegedUid, 0, s.s_privilegedUid, s.egid⟩,
            ⟨.setegid s.s_privilegedGid, 0, s.s_privilegedUid, s.s_privilegedGid⟩] },
        Result.ok ()) := by
  rw [seteuid_permitted env _ s hu] at hg
  simp [PrivilegeHelper.raise, hs, hn, seteuid_permitted env _ s hu, setegid_permitted env _ _ hg]

/-! ## Name resolution touches only the trace -/

theorem getnam_r_frame (env : Env) (db : Db) (name : String) (size : Nat) (s : State) :
    (getnam_r env db name size s).1 =
      { s with trace := s.trace ++
          [⟨db.call name size, (env.getnam_r db s name size).errorCode, s.euid, s.egid⟩] } := by
  rfl

theorem growLoop_frame (env : Env) (db : Db) (name : String) (fuel : Nat) :
    ∀ (size : Nat) (reply : LookupReply) (s : State),
      ∃ new, (growLoop env db name fuel size reply s).1 = { s with trace := s.trace ++ new } := by
  induction fuel with
  | zero =>
    intro size reply s
    refine ⟨[], ?_⟩
    unfold growLoop
    split_ifs <;> simp
  | succ n ih =>
    intro size reply s
    unfold growLoop
    split_ifs
    · exact ⟨[], by simp⟩
    · obtain ⟨new, h⟩ := ih (size * 2 % SIZE_T_MOD)
        (getnam_r env db name (size * 2 % SIZE_T_MOD) s).2
        (getnam_r env db name (size * 2 % SIZE_T_MOD) s).1
      refine ⟨⟨db.call name (size * 2 % SIZE_T_MOD),
        (env.getnam_r db s name (size * 2 % SIZE_T_MOD)).errorCode, s.euid, s.egid⟩ :: new, ?_⟩
      rw [h, getnam_r_frame]
      simp
    · exact ⟨[], by simp⟩

theorem checkReply_fst (db : Db) (name : String) (p : State × Result LookupReply) :
    (checkReply db name p).1 = p.1 := by
  obtain ⟨s, r⟩ := p
  cases r with
  | ok reply =>
    simp only [checkReply]
    split_ifs
    · rfl
    · cases reply.result <;> rfl
  | threw e => rfl
  | running => rfl

theorem newBuffer_of_le_max (env : Env) (db : Db) (n : Nat) (s : State)
    (h : n ≤ db.MAX_BUFFER_SIZE) : newBuffer env db n s = none := by
  have hM : db.MAX_BUFFER_SIZE = 16384 := by cases db <;> rfl
  have h1 : ¬ n > VECTOR_MAX_SIZE := by
    unfold VECTOR_MAX_SIZE
    omega
  have h2 : ¬ n > db.MAX_BUFFER_SIZE := Nat.not_lt.mpr h
  simp [newBuffer, h1, h2]

/-- A resolution either throws the exception of the buffer's construction, having
looked nothing up, or is the first lookup, the loop and the final check. -/
theorem resolve_cases (fuel : Nat) (env : Env) (db : Db) (name : String) (s : State) :
    (∃ err, (err = Error.length_error ∨ err = Error.bad_alloc) ∧
      resolve fuel env db name s = (s, Result.threw err)) ∨
    (¬ startSize env db > VECTOR_MAX_SIZE ∧
      resolve fuel env db name s
        = checkReply db name (growLoop env db name fuel (startSize env db)
            (getnam_r env db name (startSize env db) s).2
            (getnam_r env db name (startSize env db) s).1)) := by
  by_cases hv : startSize env db > VECTOR_MAX_SIZE
  · exact Or.inl ⟨_, Or.inl rfl, by simp [resolve, newBuffer, hv]⟩
  · by_cases ha : startSize env db > db.MAX_BUFFER_SIZE ∧
        env.allocOk s (startSize env db) = false
    · exact Or.inl ⟨_, Or.inr rfl, by simp [resolve, newBuffer, hv, ha]⟩
    · exact Or.inr ⟨hv, by simp [resolve, newBuffer, hv, ha]⟩

theorem resolve_of_le_max (fuel : Nat) (env : Env) (db : Db) (name : String) (s : State)
    (h : startSize env db ≤ db.MAX_BUFFER_SIZE) :
    resolve fuel env db name s
      = checkReply db name (growLoop env db name fuel (startSize env db)
          (getnam_r env db name (startSize env db) s).2
          (getnam_r env db name (startSize env db) s).1) := by
  simp [resolve, newBuffer_of_le_max env db _ s h]

theorem resolve_frame (fuel : Nat) (env : Env) (db : Db) (name : String) (s : State) :
    ∃ new, (resolve fuel env db name s).1 = { s with trace := s.trace ++ new } := by
  obtain ⟨err, _, hr⟩ | ⟨_, hun⟩ := resolve_cases fuel env db name s
  · exact ⟨[], by simp [hr]⟩
  · obtain ⟨new, h⟩ := growLoop_frame env db name fuel (startSize env db)
      (getnam_r env db name (startSize env db) s).2 (getnam_r env db name (startSize env db) s).1
    refine ⟨⟨db.call name (startSize env db),
      (env.getnam_r db s name (startSize env db)).errorCode, s.euid, s.egid⟩ :: new, ?_⟩
    rw [hun, checkReply_fst, h, getnam_r_frame]
    simp

/-! ## Claims about `drop` and `raise` -/

/-- C1. On a platform with privilege transitions, when the group name resolves to `g`
and the user name then resolves to `u`, and every set-id call is permitted,
`initialize(userName, groupName)` returns and the `drop()` that follows returns with
the effective identity exactly `(u, g)`. -/
theorem initialize_then_drop_effective (fuel : Nat) (env : Env)
    (userName groupName : String) (s sg su : State) (u g : Nat)
    (hs : env.HAVE_PRIVILEGE_DROP_AND_ELEVATE = true)
    (hgn : groupName.isEmpty = false) (hun : userName.isEmpty = false)
    (hG : resolve fuel env Db.group groupName s = (sg, Result.ok g))
    (hU : resolve fuel env Db.passwd userName { sg with s_normalGid := g } = (su, Result.ok u))
    (hgid : ∀ t id, env.setegidOk t id = true)
    (huid : ∀ t id, env.seteuidOk t id = true) :
    ( PrivilegeHelper.initialize fuel env userName groupName s).2 = Result.ok () ∧
    (PrivilegeHelper.drop env
      ( PrivilegeHelper.initialize fuel env userName groupName s).1).2 = Result.ok () ∧
    (PrivilegeHelper.drop env
      ( PrivilegeHelper.initialize fuel env userName groupName s).1).1.euid = u ∧
    (PrivilegeHelper.drop env
      ( PrivilegeHelper.initialize fuel env userName groupName s).1).1.egid = g := by
  have hi : PrivilegeHelper.initialize fuel env userName groupName s
      = ({ su with s_normalUid := u }, Result.ok ()) := by
    simp [ PrivilegeHelper.initialize, hs, hgn, hun, hG, hU]
  obtain ⟨new, hnew⟩ := resolve_frame fuel env Db.passwd userName { sg with s_normalGid := g }
  rw [hU] at hnew
  simp only at hnew
  rw [hi]
  refine ⟨rfl, ?_⟩
  by_cases hn : ({ su with s_normalUid := u } : State).euid
        = ({ su with s_normalUid := u } : State).s_normalUid ∧
      ({ su with s_normalUid := u } : State).egid
        = ({ su with s_normalUid := u } : State).s_normalGid
  · rw [drop_noop env _ hn.1 hn.2]
    subst hnew
    simp only at hn
    exact ⟨rfl, hn.1, hn.2⟩
  · rw [drop_permitted env _ hs hn (hgid _ _) (huid _ _)]
    subst hnew
    exact ⟨rfl, rfl, rfl⟩

/-- C1 at a concrete input: a process started as root on `daemonEnv` calls
`initialize("daemon", "daemon")`, which resolves to user 1 and group 1, then `drop()`. -/
theorem initialize_then_drop_effective_witness :
    ( PrivilegeHelper.initialize 0 daemonEnv "daemon" "daemon" (State.atStart 0 0)).2
      = Result.ok () ∧
    (PrivilegeHelper.drop daemonEnv
      ( PrivilegeHelper.initialize 0 daemonEnv "daemon" "daemon" (State.atStart 0 0)).1).2
      = Result.ok () ∧
    (PrivilegeHelper.drop daemonEnv
      ( PrivilegeHelper.initialize 0 daemonEnv "daemon" "daemon" (State.atStart 0 0)).1).1.euid
      = 1 ∧
    (PrivilegeHelper.drop daemonEnv
      ( PrivilegeHelper.initialize 0 daemonEnv "daemon" "daemon" (State.atStart 0 0)).1).1.egid
      = 1 :=
  initialize_then_drop_effective 0 daemonEnv "daemon" "daemon" (State.atStart 0 0)
    (resolve 0 daemonEnv Db.group "daemon" (State.atStart 0 0)).1
    (resolve 0 daemonEnv Db.passwd "daemon"
      { (resolve 0 daemonEnv Db.group "daemon" (State.atStart 0 0)).1 with s_normalGid := 1 }).1
    1 1 (by decide) (by decide) (by decide) (by decide) (by decide)
    (fun _ _ => rfl) (fun _ _ => rfl)

/-- C2. `drop()` is idempotent. When the effective identity equals the normal identity
in both fields, `drop()` returns at once in the very state it was called in: the trace
is the same, so no call was made. After a `drop()` that returned, a second `drop()` does
exactly that: it returns, and the state, effective ids and trace included, is the one
the first call left. -/
theorem drop_idempotent (env : Env) (s : State) :
    (s.euid = s.s_normalUid → s.egid = s.s_normalGid →
      PrivilegeHelper.drop env s = (s, Result.ok ())) ∧
    ((PrivilegeHelper.drop env s).2 = Result.ok () →
      PrivilegeHelper.drop env (PrivilegeHelper.drop env s).1
        = ((PrivilegeHelper.drop env s).1, Result.ok ())) := by
  refine ⟨drop_noop env s, fun h => ?_⟩
  cases hs : env.HAVE_PRIVILEGE_DROP_AND_ELEVATE with
  | false => rw [drop_unsupported env s hs, drop_unsupported env s hs]
  | true =>
    by_cases hn : s.euid = s.s_normalUid ∧ s.egid = s.s_normalGid
    · rw [drop_noop env s hn.1 hn.2, drop_noop env s hn.1 hn.2]
    · cases hg : env.setegidOk s s.s_normalGid with
      | false => rw [drop_gid_refused env s hs hn hg] at h; simp at h
      | true =>
        cases hu : env.seteuidOk (setegid env s.s_normalGid s).1 s.s_normalUid with
        | false => rw [drop_uid_refused env s hs hn hg hu] at h; simp at h
        | true =>
          rw [drop_permitted env s hs hn hg hu]
          exact drop_noop env _ rfl rfl

/-- C2 at a concrete input: root drops to user 1, group 1, and drops again. -/
theorem drop_idempotent_witness :
    (PrivilegeHelper.drop daemonEnv rootState).2 = Result.ok () ∧
    (PrivilegeHelper.drop daemonEnv (PrivilegeHelper.drop daemonEnv rootState).1
      = ((PrivilegeHelper.drop daemonEnv rootState).1, Result.ok ())) ∧
    PrivilegeHelper.drop daemonEnv (State.atStart 5 7) = (State.atStart 5 7, Result.ok ()) :=
  ⟨by decide, (drop_idempotent daemonEnv rootState).2 (by decide),
    (drop_idempotent daemonEnv (State.atStart 5 7)).1 rfl rfl⟩

/-- C3. On a platform with privilege transitions where every set-id call is permitted,
from an effective identity equal to the privileged identity, `drop()` returns with the
effective identity equal to the normal identity, and the `raise()` that follows
returns with the effective identity equal to the privileged identity in both fields;
the recorded privileged identity is the one captured at the start. -/
theorem drop_then_raise_restores (env : Env) (s : State)
    (hs : env.HAVE_PRIVILEGE_DROP_AND_ELEVATE = true)
    (heu : s.euid = s.s_privilegedUid) (heg : s.egid = s.s_privilegedGid)
    (hgid : ∀ t id, env.setegidOk t id = true)
    (huid : ∀ t id, env.seteuidOk t id = true) :
    (PrivilegeHelper.drop env s).2 = Result.ok () ∧
    (PrivilegeHelper.drop env s).1.euid = s.s_normalUid ∧
    (PrivilegeHelper.drop env s).1.egid = s.s_normalGid ∧
    (PrivilegeHelper.raise env (PrivilegeHelper.drop env s).1).2 = Result.ok () ∧
    (PrivilegeHelper.raise env (PrivilegeHelper.drop env s).1).1.euid = s.s_privilegedUid ∧
    (PrivilegeHelper.raise env (PrivilegeHelper.drop env s).1).1.egid = s.s_privilegedGid ∧
    (PrivilegeHelper.raise env (PrivilegeHelper.drop env s).1).1.s_privilegedUid
      = s.s_privilegedUid ∧
    (PrivilegeHelper.raise env (PrivilegeHelper.drop env s).1).1.s_privilegedGid
      = s.s_privilegedGid := by
  by_cases hn : s.euid = s.s_normalUid ∧ s.egid = s.s_normalGid
  · rw [drop_noop env s hn.1 hn.2, raise_noop env s heu heg]
    exact ⟨rfl, hn.1, hn.2, rfl, heu, heg, rfl, rfl⟩
  · rw [drop_permitted env s hs hn (hgid _ _) (huid _ _)]
    refine ⟨rfl, rfl, rfl, ?_⟩
    by_cases hp : s.s_normalUid = s.s_privilegedUid ∧ s.s_normalGid = s.s_privilegedGid
    · rw [raise_noop env _ hp.1 hp.2]
      exact ⟨rfl, hp.1, hp.2, rfl, rfl⟩
    · rw [raise_permitted env _ hs hp (huid _ _) (hgid _ _)]
      exact ⟨rfl, rfl, rfl, rfl, rfl⟩

/-- C3 at the scenario of the specification: privileged identity (0, 0), normal
identity (1, 1); the effective identity is (1, 1) after `drop()` and (0, 0) after
`raise()`. -/
theorem drop_then_raise_restores_witness :
    (PrivilegeHelper.drop daemonEnv rootState).1.euid = 1 ∧
    (PrivilegeHelper.drop daemonEnv rootState).1.egid = 1 ∧
    (PrivilegeHelper.raise daemonEnv (PrivilegeHelper.drop daemonEnv rootState).1).1.euid = 0 ∧
    (PrivilegeHelper.raise daemonEnv (PrivilegeHelper.drop daemonEnv rootState).1).1.egid = 0 :=
  have h := drop_then_raise_restores daemonEnv rootState rfl rfl rfl
    (fun _ _ => rfl) (fun _ _ => rfl)
  ⟨h.2.1, h.2.2.1, h.2.2.2.2.1, h.2.2.2.2.2.1⟩

/-- C5. In `drop()`, when `setegid(s_normalGid)` is permitted and the `seteuid` that
follows is refused, `drop()` throws the error of the user step, a `SyscallError`; the
effective group id is `s_normalGid`, the effective user id is the old one, and the two
calls are the only ones made: nothing sets the group id back. -/
theorem drop_user_step_fails (env : Env) (s : State)
    (hs : env.HAVE_PRIVILEGE_DROP_AND_ELEVATE = true)
    (hn : ¬ (s.euid = s.s_normalUid ∧ s.egid = s.s_normalGid))
    (hg : env.setegidOk s s.s_normalGid = true)
    (hu : env.seteuidOk (setegid env s.s_normalGid s).1 s.s_normalUid = false) :
    (PrivilegeHelper.drop env s).2 = Result.threw (Error.dropUid s.s_normalUid) ∧
    (Error.dropUid s.s_normalUid).kind = ErrorKind.SyscallError ∧
    (PrivilegeHelper.drop env s).1.egid = s.s_normalGid ∧
    (PrivilegeHelper.drop env s).1.euid = s.euid ∧
    (PrivilegeHelper.drop env s).1.trace
      = s.trace ++ [⟨Call.setegid s.s_normalGid, 0, s.euid, s.s_normalGid⟩,
          ⟨Call.seteuid s.s_normalUid, -1, s.euid, s.s_normalGid⟩] := by
  rw [drop_uid_refused env s hs hn hg hu]
  exact ⟨rfl, rfl, rfl, rfl, rfl⟩

/-- C5 at a concrete input: root drops to (1, 1) on a platform that permits `setegid`
and refuses `seteuid`; the process is left as user 0 in group 1. -/
theorem drop_user_step_fails_witness :
    (PrivilegeHelper.drop (daemonEnvWith (fun _ _ => true) (fun _ _ => false)) rootState).2
      = Result.threw (Error.dropUid 1) ∧
    (PrivilegeHelper.drop (daemonEnvWith (fun _ _ => true) (fun _ _ => false)) rootState).1.egid
      = 1 ∧
    (PrivilegeHelper.drop (daemonEnvWith (fun _ _ => true) (fun _ _ => false)) rootState).1.euid
      = 0 :=
  have h := drop_user_step_fails (daemonEnvWith (fun _ _ => true) (fun _ _ => false))
    rootState rfl (by decide) rfl rfl
  ⟨h.1, h.2.2.1, h.2.2.2.1⟩

theorem Allowed.excludes (s : State) (uid gid : Nat)
    (hu : s.s_normalUid ≠ s.s_privilegedUid) (hg : s.s_normalGid ≠ s.s_privilegedGid)
    (h : Allowed s uid gid) : ¬ (uid = s.s_normalUid ∧ gid = s.s_privilegedGid) := by
  rintro ⟨h1, h2⟩
  rcases h with ⟨a, _⟩ | ⟨_, b⟩ | ⟨_, b⟩
  · exact hu (h1.symm.trans a)
  · exact hg (b.symm.trans h2)
  · exact hg (b.symm.trans h2)

theorem Allowed.lower_group (s : State) (uid gid : Nat) (h : Allowed s uid gid) :
    Allowed s uid s.s_normalGid := by
  rcases h with ⟨a, _⟩ | ⟨a, _⟩ | ⟨a, _⟩
  · exact Or.inr (Or.inl ⟨a, rfl⟩)
  · exact Or.inr (Or.inl ⟨a, rfl⟩)
  · exact Or.inr (Or.inr ⟨a, rfl⟩)

theorem Allowed.raise_user (s : State) (uid gid : Nat) (h : Allowed s uid gid) :
    Allowed s s.s_privilegedUid gid := by
  rcases h with ⟨_, b⟩ | ⟨_, b⟩ | ⟨_, b⟩
  · exact Or.inl ⟨rfl, b⟩
  · exact Or.inr (Or.inl ⟨rfl, b⟩)
  · exact Or.inr (Or.inl ⟨rfl, b⟩)

/-- One `drop()` or `raise()` from an allowed effective identity: the statics are
untouched, and the identity after each call made, and at the end, is allowed. -/
theorem Op.run_allowed (env : Env) (op : Op) (t : State) (ha : Allowed t t.euid t.egid) :
    ∃ uid gid new,
      (op.run env t).1 = { t with euid := uid, egid := gid, trace := t.trace ++ new } ∧
      Allowed t uid gid ∧ ∀ e ∈ new, Allowed t e.euid e.egid := by
  have hlow := Allowed.lower_group t _ _ ha
  have hup := Allowed.raise_user t _ _ ha
  have stay : ∀ r : Result Unit, (t, r).1
      = { t with euid := t.euid, egid := t.egid, trace := t.trace ++ [] } := by
    intro r; simp
  cases op with
  | drop =>
    simp only [Op.run]
    cases hs : env.HAVE_PRIVILEGE_DROP_AND_ELEVATE with
    | false => rw [drop_unsupported env t hs]; exact ⟨_, _, [], stay _, ha, by simp⟩
    | true =>
      by_cases hn : t.euid = t.s_normalUid ∧ t.egid = t.s_normalGid
      · rw [drop_noop env t hn.1 hn.2]; exact ⟨_, _, [], stay _, ha, by simp⟩
      · cases hg : env.setegidOk t t.s_normalGid with
        | false =>
          rw [drop_gid_refused env t hs hn hg]
          exact ⟨t.euid, t.egid, _, rfl, ha, by simpa using ha⟩
        | true =>
          cases hu : env.seteuidOk (setegid env t.s_normalGid t).1 t.s_normalUid with
          | false =>
            rw [drop_uid_refused env t hs hn hg hu]
            exact ⟨t.euid, t.s_normalGid, _, rfl, hlow, by simpa using hlow⟩
          | true =>
            rw [drop_permitted env t hs hn hg hu]
            have hN : Allowed t t.s_normalUid t.s_normalGid := Or.inr (Or.inr ⟨rfl, rfl⟩)
            exact ⟨t.s_normalUid, t.s_normalGid, _, rfl, hN, by simpa using ⟨hlow, hN⟩⟩
  | raise =>
    simp only [Op.run]
    cases hs : env.HAVE_PRIVILEGE_DROP_AND_ELEVATE with
    | false => rw [raise_unsupported env t hs]; exact ⟨_, _, [], stay _, ha, by simp⟩
    | true =>
      by_cases hn : t.euid = t.s_privilegedUid ∧ t.egid = t.s_privilegedGid
      · rw [raise_noop env t hn.1 hn.2]; exact ⟨_, _, [], stay _, ha, by simp⟩
      · cases hu : env.seteuidOk t t.s_privilegedUid with
        | false =>
          rw [raise_uid_refused env t hs hn hu]
          exact ⟨t.euid, t.egid, _, rfl, ha, by simpa using ha⟩
        | true =>
          cases hg : env.setegidOk (seteuid env t.s_privilegedUid t).1 t.s_privilegedGid with
          | false =>
            rw [raise_gid_refused env t hs hn hu hg]
            exact ⟨t.s_privilegedUid, t.egid, _, rfl, hup, by simpa using hup⟩
          | true =>
            rw [raise_permitted env t hs hn hu hg]
            have hP : Allowed t t.s_privilegedUid t.s_privilegedGid := Or.inl ⟨rfl, rfl⟩
            exact ⟨t.s_privilegedUid, t.s_privilegedGid, _, rfl, hP, by simpa using ⟨hup, hP⟩⟩

/-- Any sequence of `drop()` / `raise()` calls from an allowed effective identity. -/
theorem runOps_allowed (env : Env) (ops : List Op) :
    ∀ t : State, Allowed t t.euid t.egid →
      ∃ uid gid new,
        runOps env ops t = { t with euid := uid, egid := gid, trace := t.trace ++ new } ∧
        Allowed t uid gid ∧ ∀ e ∈ new, Allowed t e.euid e.egid := by
  induction ops with
  | nil => intro t ha; exact ⟨t.euid, t.egid, [], by simp [runOps], ha, by simp⟩
  | cons op ops ih =>
    intro t ha
    obtain ⟨u1, g1, new1, h1, a1, e1⟩ := Op.run_allowed env op t ha
    obtain ⟨u2, g2, new2, h2, a2, e2⟩ := ih (op.run env t).1 (by rw [h1]; exact a1)
    refine ⟨u2, g2, new1 ++ new2, ?_, ?_, ?_⟩
    · simp only [runOps]
      rw [h2, h1]
      simp
    · rw [h1] at a2; exact a2
    · intro e he
      rcases List.mem_append.mp he with h | h
      · exact e1 e h
      · have := e2 e h
        rw [h1] at this; exact this

/-- C7. With the normal identity differing from the privileged identity in both
fields and the effective identity initially the privileged one, after any sequence of
`drop()` and `raise()` calls, on any platform and with any of the set-id calls refused,
the effective identity after every call made, and at the end, is one of
(privUid, privGid), (privUid, normalGid), (normalUid, normalGid); it is never the
normal user id paired with the privileged group id. -/
theorem never_normal_user_with_privileged_group (env : Env) (ops : List Op) (s : State)
    (hu : s.s_normalUid ≠ s.s_privilegedUid) (hg : s.s_normalGid ≠ s.s_privilegedGid)
    (heu : s.euid = s.s_privilegedUid) (heg : s.egid = s.s_privilegedGid) :
    ∃ new, (runOps env ops s).trace = s.trace ++ new ∧
      (∀ e ∈ new, Allowed s e.euid e.egid ∧
        ¬ (e.euid = s.s_normalUid ∧ e.egid = s.s_privilegedGid)) ∧
      Allowed s (runOps env ops s).euid (runOps env ops s).egid ∧
      ¬ ((runOps env ops s).euid = s.s_normalUid ∧
        (runOps env ops s).egid = s.s_privilegedGid) := by
  obtain ⟨uid, gid, new, h, a, e⟩ := runOps_allowed env ops s (Or.inl ⟨heu, heg⟩)
  rw [h]
  exact ⟨new, rfl, fun ev hev => ⟨e ev hev, Allowed.excludes s _ _ hu hg (e ev hev)⟩,
    a, Allowed.excludes s _ _ hu hg a⟩

/-- C7 at a concrete input: root with normal identity (1, 1) calls `drop()`, `raise()`,
`drop()` on a platform that refuses every `seteuid`; it never becomes user 1 in
group 0. -/
theorem never_normal_user_with_privileged_group_witness :
    ∃ new, (runOps (daemonEnvWith (fun _ _ => true) (fun _ _ => false))
        [Op.drop, Op.raise, Op.drop] rootState).trace = rootState.trace ++ new ∧
      (∀ e ∈ new, Allowed rootState e.euid e.egid ∧ ¬ (e.euid = 1 ∧ e.egid = 0)) ∧
      Allowed rootState
        (runOps (daemonEnvWith (fun _ _ => true) (fun _ _ => false))
          [Op.drop, Op.raise, Op.drop] rootState).euid
        (runOps (daemonEnvWith (fun _ _ => true) (fun _ _ => false))
          [Op.drop, Op.raise, Op.drop] rootState).egid ∧
      ¬ ((runOps (daemonEnvWith (fun _ _ => true) (fun _ _ => false))
          [Op.drop, Op.raise, Op.drop] rootState).euid = 1 ∧
        (runOps (daemonEnvWith (fun _ _ => true) (fun _ _ => false))
          [Op.drop, Op.raise, Op.drop] rootState).egid = 0) :=
  never_normal_user_with_privileged_group (daemonEnvWith (fun _ _ => true) (fun _ _ => false))
    [Op.drop, Op.raise, Op.drop] rootState (by decide) (by decide) rfl rfl

/-! ## The buffer-growth loop -/

theorem Db.MAX_BUFFER_SIZE_eq (db : Db) : db.MAX_BUFFER_SIZE = 16384 := by
  cases db <;> rfl

theorem Db.call_inj (db : Db) (name : String) (z z' : Nat)
    (h : db.call name z = db.call name z') : z = z' := by
  cases db <;> simpa [Db.call] using h

theorem double_mod_of_le_max (db : Db) (z : Nat) (h : z ≤ db.MAX_BUFFER_SIZE) :
    z * 2 % SIZE_T_MOD = z * 2 := by
  rw [Db.MAX_BUFFER_SIZE_eq] at h
  apply Nat.mod_eq_of_lt
  unfold SIZE_T_MOD
  omega

theorem double_mod_of_le_vector_max (z : Nat) (h : z ≤ VECTOR_MAX_SIZE) :
    z * 2 % SIZE_T_MOD = z * 2 := by
  apply Nat.mod_eq_of_lt
  unfold VECTOR_MAX_SIZE at h
  unfold SIZE_T_MOD
  omega

/-- The loop of lines 72-79 / 100-107, whatever the lookups answer: every lookup it
makes uses a buffer within the cap; it throws at once when the reply it starts from is
`ERANGE` at a size whose double is above the cap; and a lookup of its own answered
`ERANGE` at such a size is its last, after which it throws. -/
theorem growLoop_cap (env : Env) (db : Db) (name : String) (fuel : Nat) :
    ∀ (size : Nat) (reply : LookupReply) (s : State),
      ∃ new, (growLoop env db name fuel size reply s).1 = { s with trace := s.trace ++ new } ∧
        (∀ e ∈ new, ∃ z, e.call = db.call name z ∧ z ≤ db.MAX_BUFFER_SIZE) ∧
        (reply.errorCode = ERANGE → db.MAX_BUFFER_SIZE < size * 2 % SIZE_T_MOD →
          new = [] ∧
          (growLoop env db name fuel size reply s).2 = Result.threw db.bufferError) ∧
        (∀ pre e post z, new = pre ++ e :: post → e.call = db.call name z →
          e.ret = ERANGE → db.MAX_BUFFER_SIZE < z * 2 →
          post = [] ∧
          (growLoop env db name fuel size reply s).2 = Result.threw db.bufferError) := by
  induction fuel with
  | zero =>
    intro size reply s
    refine ⟨[], ?_, by simp, ?_, by simp⟩
    · unfold growLoop; split_ifs <;> simp
    · intro h1 h2
      unfold growLoop
      simp [h1, h2]
  | succ n ih =>
    intro size reply s
    by_cases h1 : reply.errorCode = ERANGE
    · by_cases h2 : size * 2 % SIZE_T_MOD > db.MAX_BUFFER_SIZE
      · refine ⟨[], ?_, by simp, ?_, by simp⟩
        · unfold growLoop; simp [h1, h2]
        · intro _ _
          unfold growLoop
          simp [h1, h2]
      · obtain ⟨new, hst, hcap, hnow, hlater⟩ := ih (size * 2 % SIZE_T_MOD)
          (getnam_r env db name (size * 2 % SIZE_T_MOD) s).2
          (getnam_r env db name (size * 2 % SIZE_T_MOD) s).1
        have hun : growLoop env db name (n + 1) size reply s
            = growLoop env db name n (size * 2 % SIZE_T_MOD)
                (getnam_r env db name (size * 2 % SIZE_T_MOD) s).2
                (getnam_r env db name (size * 2 % SIZE_T_MOD) s).1 := by
          rw [growLoop]
          simp [h1, h2]
        have hle : size * 2 % SIZE_T_MOD ≤ db.MAX_BUFFER_SIZE := Nat.le_of_not_gt h2
        refine ⟨⟨db.call name (size * 2 % SIZE_T_MOD),
          (env.getnam_r db s name (size * 2 % SIZE_T_MOD)).errorCode, s.euid, s.egid⟩ :: new,
          ?_, ?_, ?_, ?_⟩
        · rw [hun, hst, getnam_r_frame]
          simp
        · intro e he
          rcases List.mem_cons.mp he with h | h
          · exact ⟨_, by rw [h], hle⟩
          · exact hcap e h
        · intro _ h; exact absurd h h2
        · intro pre e post z hsplit hcall hret hz
          rw [hun]
          cases pre with
          | nil =>
            simp only [List.nil_append, List.cons.injEq] at hsplit
            obtain ⟨he, hpost⟩ := hsplit
            subst he
            have hzz : z = size * 2 % SIZE_T_MOD := (Db.call_inj db name _ _ hcall).symm
            subst hzz
            have hr : (getnam_r env db name (size * 2 % SIZE_T_MOD) s).2.errorCode = ERANGE := hret
            have := hnow hr (by rw [double_mod_of_le_max db _ hle]; exact hz)
            exact ⟨by rw [← hpost]; exact this.1, this.2⟩
          | cons p pre' =>
            simp only [List.cons_append, List.cons.injEq] at hsplit
            exact hlater pre' e post z hsplit.2 hcall hret hz
    · refine ⟨[], ?_, by simp, fun h => absurd h h1, by simp⟩
      unfold growLoop; simp [h1]

theorem checkReply_threw (db : Db) (name : String) (p : State × Result LookupReply)
    (e : Error) (h : p.2 = Result.threw e) : (checkReply db name p).2 = Result.threw e := by
  obtain ⟨s, r⟩ := p
  simp only at h
  subst h
  rfl

/-- C8, amended. Whatever the lookups answer and whatever `sysconf` reports, the first
lookup of a resolution uses the starting size and every later one a buffer of at most
the cap, so that with a starting size of at most 16384 no lookup uses a buffer above
16384; and a lookup answered `ERANGE` at a size whose double is above the cap is the
last one, after which the resolution throws the buffer error. -/
theorem resolve_buffer_cap (fuel : Nat) (env : Env) (db : Db) (name : String) (s : State) :
    ∃ new, (resolve fuel env db name s).1 = { s with trace := s.trace ++ new } ∧
      (∀ e ∈ new.head?, e.call = db.call name (startSize env db)) ∧
      (∀ e ∈ new.tail, ∃ z, e.call = db.call name z ∧ z ≤ db.MAX_BUFFER_SIZE) ∧
      (startSize env db ≤ db.MAX_BUFFER_SIZE →
        ∀ e ∈ new, ∃ z, e.call = db.call name z ∧ z ≤ db.MAX_BUFFER_SIZE) ∧
      (∀ pre e post z, new = pre ++ e :: post → e.call = db.call name z →
        e.ret = ERANGE → db.MAX_BUFFER_SIZE < z * 2 →
        post = [] ∧
        (resolve fuel env db name s).2 = Result.threw db.bufferError ∧
        db.bufferError.kind = ErrorKind.BufferAllocationError) := by
  obtain ⟨err, herr, hr⟩ | ⟨hv, hun0⟩ := resolve_cases fuel env db name s
  · refine ⟨[], ?_, by simp, by simp, by simp, by simp⟩
    simp [hr]
  · have hun : resolve fuel env db name s
        = checkReply db name (growLoop env db name fuel (startSize env db)
            (getnam_r env db name (startSize env db) s).2
            (getnam_r env db name (startSize env db) s).1) := hun0
    obtain ⟨new, hst, hcap, hnow, hlater⟩ := growLoop_cap env db name fuel (startSize env db)
      (getnam_r env db name (startSize env db) s).2
      (getnam_r env db name (startSize env db) s).1
    have hkind : db.bufferError.kind = ErrorKind.BufferAllocationError := by
      cases db <;> rfl
    refine ⟨⟨db.call name (startSize env db),
      (env.getnam_r db s name (startSize env db)).errorCode, s.euid, s.egid⟩ :: new,
      ?_, ?_, ?_, ?_, ?_⟩
    · rw [hun, checkReply_fst, hst, getnam_r_frame]
      simp
    · simp
    · simpa using hcap
    · intro hle e he
      rcases List.mem_cons.mp he with h | h
      · exact ⟨_, by rw [h], hle⟩
      · exact hcap e h
    · intro pre e post z hsplit hcall hret hz
      rw [hun]
      cases pre with
      | nil =>
        simp only [List.nil_append, List.cons.injEq] at hsplit
        obtain ⟨he, hpost⟩ := hsplit
        subst he
        have hzz : z = startSize env db := (Db.call_inj db name _ _ hcall).symm
        subst hzz
        have hr : (getnam_r env db name (startSize env db) s).2.errorCode = ERANGE := hret
        have := hnow hr (by
          rw [double_mod_of_le_vector_max _ (Nat.le_of_not_gt hv)]; exact hz)
        exact ⟨by rw [← hpost]; exact this.1, checkReply_threw _ _ _ _ this.2, hkind⟩
      | cons p pre' =>
        simp only [List.cons_append, List.cons.injEq] at hsplit
        have := hlater pre' e post z hsplit.2 hcall hret hz
        exact ⟨this.1, checkReply_threw _ _ _ _ this.2, hkind⟩

/-- C8 as stated fails: when `sysconf` reports 32768 bytes, the first lookup of
`initialize("", "daemon")` is made with a buffer of 32768 bytes, above the cap. -/
theorem first_lookup_above_cap :
    ( PrivilegeHelper.initialize 0 (thresholdEnv 32768 0 7) "" "daemon" (State.atStart 0 0)).1.trace
      = [⟨Call.getgrnam_r "daemon" 32768, 0, 0, 0⟩] ∧
    MAX_GROUP_BUFFER_SIZE < 32768 := by
  decide

/-- C8 at a concrete input: from the 1024-byte fallback with every lookup answered
`ERANGE`, the lookup at 16384 bytes is the last and the resolution throws. -/
theorem resolve_buffer_cap_witness :
    (resolve 4 (alwaysErangeEnv (-1)) Db.group "daemon" (State.atStart 0 0)).2
      = Result.threw Error.groupBuffer := by
  obtain ⟨new, hst, _, _, _, h⟩ :=
    resolve_buffer_cap 4 (alwaysErangeEnv (-1)) Db.group "daemon" (State.atStart 0 0)
  have htr : (resolve 4 (alwaysErangeEnv (-1)) Db.group "daemon" (State.atStart 0 0)).1.trace
      = [⟨Call.getgrnam_r "daemon" 1024, ERANGE, 0, 0⟩,
          ⟨Call.getgrnam_r "daemon" 2048, ERANGE, 0, 0⟩,
          ⟨Call.getgrnam_r "daemon" 4096, ERANGE, 0, 0⟩,
          ⟨Call.getgrnam_r "daemon" 8192, ERANGE, 0, 0⟩] ++
        ⟨Call.getgrnam_r "daemon" 16384, ERANGE, 0, 0⟩ :: [] := by decide
  rw [hst] at htr
  exact (h _ _ _ 16384 htr rfl rfl (by decide)).2.1

/-! ## Termination of the loop -/

/-- With a buffer of at least one byte (and within `max_size()`), `fuel` iterations
are enough for the loop as soon as `size * 2 ^ (fuel + 1)` is above the cap. -/
theorem growLoop_terminates (env : Env) (db : Db) (name : String) (fuel : Nat) :
    ∀ (size : Nat) (reply : LookupReply) (s : State),
      size ≤ VECTOR_MAX_SIZE → db.MAX_BUFFER_SIZE < size * 2 ^ (fuel + 1) →
      (growLoop env db name fuel size reply s).2 ≠ Result.running := by
  induction fuel with
  | zero =>
    intro size reply s hv h
    have h2 : size * 2 % SIZE_T_MOD > db.MAX_BUFFER_SIZE := by
      rw [double_mod_of_le_vector_max _ hv]; simpa using h
    unfold growLoop
    split_ifs <;> simp
  | succ n ih =>
    intro size reply s hv h
    by_cases h1 : reply.errorCode = ERANGE
    · by_cases h2 : size * 2 % SIZE_T_MOD > db.MAX_BUFFER_SIZE
      · unfold growLoop; simp [h1, h2]
      · have hun : growLoop env db name (n + 1) size reply s
            = growLoop env db name n (size * 2 % SIZE_T_MOD)
                (getnam_r env db name (size * 2 % SIZE_T_MOD) s).2
                (getnam_r env db name (size * 2 % SIZE_T_MOD) s).1 := by
          rw [growLoop]
          simp [h1, h2]
        rw [hun]
        have hle : size * 2 % SIZE_T_MOD ≤ db.MAX_BUFFER_SIZE := Nat.le_of_not_gt h2
        have hd := double_mod_of_le_vector_max _ hv
        apply ih
        · rw [Db.MAX_BUFFER_SIZE_eq] at hle
          unfold VECTOR_MAX_SIZE
          omega
        · rw [hd]
          calc db.MAX_BUFFER_SIZE < size * 2 ^ (n + 1 + 1) := h
            _ = size * 2 * 2 ^ (n + 1) := by ring
    · unfold growLoop; simp [h1]

theorem checkReply_running (db : Db) (name : String) (p : State × Result LookupReply)
    (h : p.2 ≠ Result.running) : (checkReply db name p).2 ≠ Result.running := by
  obtain ⟨s, r⟩ := p
  cases r with
  | ok reply =>
    simp only [checkReply]
    split_ifs
    · simp
    · cases reply.result <;> simp
  | threw e => simp [checkReply]
  | running => exact absurd rfl h

/-- Whatever the lookups answer, a resolution that starts from a buffer of at least
one byte has ended, with an id or an error, within 14 iterations of its loop. -/
theorem resolve_terminates (fuel : Nat) (env : Env) (db : Db) (name : String) (s : State)
    (hpos : 0 < startSize env db) (hfuel : 14 ≤ fuel) :
    (resolve fuel env db name s).2 ≠ Result.running := by
  obtain ⟨err, herr, hr⟩ | ⟨hv, hun0⟩ := resolve_cases fuel env db name s
  · simp [hr]
  · have hun : resolve fuel env db name s
        = checkReply db name (growLoop env db name fuel (startSize env db)
            (getnam_r env db name (startSize env db) s).2
            (getnam_r env db name (startSize env db) s).1) := hun0
    rw [hun]
    apply checkReply_running
    apply growLoop_terminates _ _ _ _ _ _ _ (Nat.le_of_not_gt hv)
    rw [Db.MAX_BUFFER_SIZE_eq]
    calc 16384 < 1 * 2 ^ (14 + 1) := by norm_num
      _ ≤ startSize env db * 2 ^ (fuel + 1) :=
        Nat.mul_le_mul hpos (Nat.pow_le_pow_right (by norm_num) (by omega))

/-- The loop started from an empty buffer on a platform that answers `ERANGE` to every
lookup: each iteration doubles 0 to 0 and looks up again. -/
theorem growLoop_zero_size (db : Db) (name : String) (fuel : Nat) :
    ∀ s : State,
      growLoop (alwaysErangeEnv 0) db name fuel 0 ⟨ERANGE, none⟩ s
        = ({ s with trace := s.trace ++
              List.replicate fuel ⟨db.call name 0, ERANGE, s.euid, s.egid⟩ },
            Result.running) := by
  induction fuel with
  | zero =>
    intro s
    unfold growLoop
    simp [SIZE_T_MOD, Db.MAX_BUFFER_SIZE_eq]
  | succ n ih =>
    intro s
    have hreply : ∀ t : State, (getnam_r (alwaysErangeEnv 0) db name 0 t).2 = ⟨ERANGE, none⟩ := by
      intro t; cases db <;> rfl
    have hstate : ∀ t : State, (getnam_r (alwaysErangeEnv 0) db name 0 t).1
        = { t with trace := t.trace ++ [⟨db.call name 0, ERANGE, t.euid, t.egid⟩] } := by
      intro t; cases db <;> rfl
    rw [growLoop]
    simp only [SIZE_T_MOD, Db.MAX_BUFFER_SIZE_eq, Nat.zero_mul, Nat.zero_mod, if_true,
      gt_iff_lt, Nat.not_lt_zero, if_false, hreply, hstate, ih]
    simp [List.replicate_succ]

/-- C9 fails on the code at starting size 0. When `sysconf(_SC_GETGR_R_SIZE_MAX)`
reports 0 and every lookup answers `ERANGE`, `initialize("", "daemon")` has not returned
after any number `fuel` of iterations of its loop: it has made `fuel + 1` lookups, all
with an empty buffer, and the loop is still running. -/
theorem initialize_loops_at_size_zero (fuel : Nat) :
    PrivilegeHelper.initialize fuel (alwaysErangeEnv 0) "" "daemon" (State.atStart 0 0)
      = ({ State.atStart 0 0 with
            trace := List.replicate (fuel + 1) ⟨Call.getgrnam_r "daemon" 0, ERANGE, 0, 0⟩ },
          Result.running) := by
  have hstart : startSize (alwaysErangeEnv 0) Db.group = 0 := by decide
  have hres : resolve fuel (alwaysErangeEnv 0) Db.group "daemon" (State.atStart 0 0)
      = ({ State.atStart 0 0 with
            trace := List.replicate (fuel + 1) ⟨Call.getgrnam_r "daemon" 0, ERANGE, 0, 0⟩ },
          Result.running) := by
    have h1 : (getnam_r (alwaysErangeEnv 0) Db.group "daemon" 0 (State.atStart 0 0)).2
        = ⟨ERANGE, none⟩ := rfl
    rw [resolve_of_le_max _ _ _ _ _ (by rw [hstart]; exact Nat.zero_le _)]
    simp only [hstart, h1, growLoop_zero_size]
    simp [checkReply, getnam_r, State.atStart, Db.call, alwaysErangeEnv,
      Env.getnam_r, List.replicate_succ]
  have he : ("daemon".isEmpty) = false := by decide
  have he' : ("".isEmpty) = true := by decide
  have hs : (alwaysErangeEnv 0).HAVE_PRIVILEGE_DROP_AND_ELEVATE = true := rfl
  simp only [ PrivilegeHelper.initialize, hs, hres, he, he']
  simp

/-! ## A lookup that succeeds from a threshold on -/

/-- The loop on a platform whose lookup of `name` answers `ERANGE` below `n` bytes and
finds id `x` from `n` bytes on: started `k` doublings below the first sufficient size,
with that size within the cap, it makes exactly those `k` lookups and exits with the
successful reply. -/
theorem growLoop_threshold (env : Env) (db : Db) (name : String) (n x : Nat)
    (hsmall : ∀ t z, z < n → (env.getnam_r db t name z).errorCode = ERANGE)
    (hlarge : ∀ t z, n ≤ z → env.getnam_r db t name z = ⟨0, some x⟩) (k : Nat) :
    ∀ (fuel size : Nat) (reply : LookupReply) (s : State), k ≤ fuel →
      (∀ j < k, size * 2 ^ j < n) → n ≤ size * 2 ^ k → size * 2 ^ k ≤ db.MAX_BUFFER_SIZE →
      (0 < k → reply.errorCode = ERANGE) → (k = 0 → reply = ⟨0, some x⟩) →
      growLoop env db name fuel size reply s
        = ({ s with trace := s.trace ++ (List.range k).map (fun j =>
              ⟨db.call name (size * 2 ^ (j + 1)), if j + 1 < k then ERANGE else 0,
                s.euid, s.egid⟩) },
            Result.ok ⟨0, some x⟩) := by
  induction k with
  | zero =>
    intro fuel size reply s _ _ _ _ _ hr
    rw [hr rfl]
    unfold growLoop
    simp [ERANGE]
  | succ k ih =>
    intro fuel size reply s hfuel hmin hk hcap hr _
    obtain ⟨f, rfl⟩ : ∃ f, fuel = f + 1 := ⟨fuel - 1, by omega⟩
    have h1 : reply.errorCode = ERANGE := hr (Nat.succ_pos k)
    have hpow : size * 2 ^ (k + 1) = size * 2 * 2 ^ k := by ring
    have hle : size * 2 ≤ db.MAX_BUFFER_SIZE := by
      calc size * 2 = size * 2 * 1 := by ring
        _ ≤ size * 2 * 2 ^ k := Nat.mul_le_mul_left _ (Nat.one_le_two_pow)
        _ ≤ db.MAX_BUFFER_SIZE := by rw [← hpow]; exact hcap
    have hmod : size * 2 % SIZE_T_MOD = size * 2 := by
      rw [Db.MAX_BUFFER_SIZE_eq] at hle
      apply Nat.mod_eq_of_lt
      unfold SIZE_T_MOD
      omega
    have h2 : ¬ size * 2 % SIZE_T_MOD > db.MAX_BUFFER_SIZE := by
      rw [hmod]; exact Nat.not_lt.mpr hle
    have hun : growLoop env db name (f + 1) size reply s
        = growLoop env db name f (size * 2)
            (getnam_r env db name (size * 2) s).2 (getnam_r env db name (size * 2) s).1 := by
      rw [growLoop]
      rw [hmod] at h2
      simp only [h1, if_true, hmod, if_neg h2]
    have hret : (env.getnam_r db s name (size * 2)).errorCode
        = if 0 + 1 < k + 1 then ERANGE else 0 := by
      by_cases hk0 : 0 < k
      · have := hmin 1 (by omega)
        rw [pow_one] at this
        rw [hsmall s _ this]
        simp [hk0]
      · have hk0' : k = 0 := by omega
        subst hk0'
        have : n ≤ size * 2 := by simpa using hk
        rw [hlarge s _ this]
        simp
    rw [hun, ih f (size * 2) _ _ (by omega)
      (fun j hj => by
        have := hmin (j + 1) (by omega)
        calc size * 2 * 2 ^ j = size * 2 ^ (j + 1) := by ring
          _ < n := this)
      (by rw [← hpow]; exact hk) (by rw [← hpow]; exact hcap)
      (fun hk0 => by
        have := hmin 1 (by omega)
        rw [pow_one] at this
        exact hsmall s _ this)
      (fun hk0 => by
        subst hk0
        exact hlarge s _ (by simpa using hk))]
    rw [getnam_r_frame, hret, List.range_succ_eq_map, List.map_cons, List.map_map]
    simp only [List.append_assoc, List.singleton_append, Prod.mk.injEq, and_true]
    congr 2
    congr 1
    apply List.map_congr_left
    intro j _
    simp only [Function.comp, Nat.succ_eq_add_one, Nat.add_lt_add_iff_right]
    congr 2
    ring

/-- C10. On a platform whose lookup of `name` answers `ERANGE` for a buffer below `n`
bytes and finds id `x` otherwise, with `k` the least number of doublings that takes the
starting size `s` to at least `n` and `s * 2 ^ k` within the cap, and at least `k` loop
iterations allowed: the resolution returns exactly `x`, having made exactly the lookups
at sizes `s, 2s, ..., s * 2 ^ k` in that order (all but the last answered `ERANGE`), and
`initialize` with that name alone returns having set the matching field of the normal
identity, `s_normalGid` or `s_normalUid`, to `x` and nothing else but the trace. -/
theorem resolve_succeeds_at_threshold (fuel : Nat) (env : Env) (db : Db) (name : String)
    (s : State) (n x k : Nat)
    (hsmall : ∀ t z, z < n → (env.getnam_r db t name z).errorCode = ERANGE)
    (hlarge : ∀ t z, n ≤ z → env.getnam_r db t name z = ⟨0, some x⟩)
    (hpos : 0 < startSize env db)
    (hmin : ∀ j < k, startSize env db * 2 ^ j < n)
    (hk : n ≤ startSize env db * 2 ^ k)
    (hcap : startSize env db * 2 ^ k ≤ db.MAX_BUFFER_SIZE)
    (hfuel : k ≤ fuel) :
    resolve fuel env db name s
      = ({ s with trace := s.trace ++ (List.range (k + 1)).map (fun j =>
            ⟨db.call name (startSize env db * 2 ^ j), if j < k then ERANGE else 0,
              s.euid, s.egid⟩) },
          Result.ok x) ∧
    (env.HAVE_PRIVILEGE_DROP_AND_ELEVATE = true → name.isEmpty = false →
      (db = Db.group →
        PrivilegeHelper.initialize fuel env "" name s
          = ({ s with
                s_normalGid := x
                trace := s.trace ++ (List.range (k + 1)).map (fun j =>
                  ⟨Call.getgrnam_r name (startSize env db * 2 ^ j),
                    if j < k then ERANGE else 0, s.euid, s.egid⟩) },
              Result.ok ())) ∧
      (db = Db.passwd →
        PrivilegeHelper.initialize fuel env name "" s
          = ({ s with
                s_normalUid := x
                trace := s.trace ++ (List.range (k + 1)).map (fun j =>
                  ⟨Call.getpwnam_r name (startSize env db * 2 ^ j),
                    if j < k then ERANGE else 0, s.euid, s.egid⟩) },
              Result.ok ()))) := by
  have hres : resolve fuel env db name s
      = ({ s with trace := s.trace ++ (List.range (k + 1)).map (fun j =>
            ⟨db.call name (startSize env db * 2 ^ j), if j < k then ERANGE else 0,
              s.euid, s.egid⟩) },
          Result.ok x) := by
    have hle : startSize env db ≤ db.MAX_BUFFER_SIZE :=
      calc startSize env db = startSize env db * 1 := by ring
        _ ≤ startSize env db * 2 ^ k := Nat.mul_le_mul_left _ (Nat.one_le_two_pow)
        _ ≤ db.MAX_BUFFER_SIZE := hcap
    have hv : ¬ startSize env db > VECTOR_MAX_SIZE := by
      rw [Db.MAX_BUFFER_SIZE_eq] at hle
      unfold VECTOR_MAX_SIZE
      omega
    have hret : (env.getnam_r db s name (startSize env db)).errorCode
        = if 0 < k then ERANGE else 0 := by
      by_cases hk0 : 0 < k
      · have := hmin 0 hk0
        rw [pow_zero, Nat.mul_one] at this
        rw [hsmall s _ this]
        simp [hk0]
      · have hk0' : k = 0 := by omega
        subst hk0'
        rw [hlarge s _ (by simpa using hk)]
        simp
    have hloop := growLoop_threshold env db name n x hsmall hlarge k fuel (startSize env db)
      (getnam_r env db name (startSize env db) s).2
      (getnam_r env db name (startSize env db) s).1 hfuel hmin hk hcap
      (fun hk0 => by
        have := hmin 0 hk0
        rw [pow_zero, Nat.mul_one] at this
        exact hsmall s _ this)
      (fun hk0 => by
        subst hk0
        exact hlarge s _ (by simpa using hk))
    rw [resolve_of_le_max _ _ _ _ _ hle]
    simp only [hloop, checkReply]
    rw [getnam_r_frame, hret, List.range_succ_eq_map, List.map_cons, List.map_map]
    simp only [ne_eq, not_true_eq_false, if_false, List.append_assoc, List.singleton_append,
      Prod.mk.injEq, and_true, pow_zero, Nat.mul_one]
    congr 2
  have he : ("".isEmpty) = true := by decide
  refine ⟨hres, fun hs hne => ⟨fun hdb => ?_, fun hdb => ?_⟩⟩
  · subst hdb
    simp only [ PrivilegeHelper.initialize, hs, hne, he]
    rw [hres]
    simp [Db.call]
  · subst hdb
    simp only [ PrivilegeHelper.initialize, hs, hne, he]
    simp only [Bool.not_true, Bool.not_false, if_true, Bool.false_eq_true, if_false]
    rw [hres]
    simp [Db.call]

/-- C10 at a concrete input: from the 1024-byte fallback, with a group entry that needs
3000 bytes, the sizes tried are 1024, 2048, 4096 and `s_normalGid` becomes 7. -/
theorem resolve_succeeds_at_threshold_witness :
    PrivilegeHelper.initialize 2 (thresholdEnv (-1) 3000 7) "" "daemon" (State.atStart 0 0)
      = ({ State.atStart 0 0 with
            s_normalGid := 7
            trace := [⟨Call.getgrnam_r "daemon" 1024, ERANGE, 0, 0⟩,
              ⟨Call.getgrnam_r "daemon" 2048, ERANGE, 0, 0⟩,
              ⟨Call.getgrnam_r "daemon" 4096, 0, 0, 0⟩] },
          Result.ok ()) :=
  ((resolve_succeeds_at_threshold 2 (thresholdEnv (-1) 3000 7) Db.group "daemon"
    (State.atStart 0 0) 3000 7 2
    (fun _ z hz => by simp [Env.getnam_r, thresholdEnv, hz])
    (fun _ z hz => by simp [Env.getnam_r, thresholdEnv, Nat.not_lt.mpr hz])
    (by decide) (by decide) (by decide) (by decide) (by decide)).2 rfl (by decide)).1 rfl

/-! ## What `initialize` can touch -/

/-- Every call a resolution records is a lookup of its own name in its own database. -/
theorem resolve_calls (fuel : Nat) (env : Env) (db : Db) (name : String) (s : State) :
    ∃ new, (resolve fuel env db name s).1 = { s with trace := s.trace ++ new } ∧
      ∀ e ∈ new, ∃ z, e.call = db.call name z := by
  obtain ⟨err, herr, hr⟩ | ⟨hv, hun0⟩ := resolve_cases fuel env db name s
  · exact ⟨[], by simp [hr], by simp⟩
  · obtain ⟨new, hst, hcap, _, _⟩ := growLoop_cap env db name fuel (startSize env db)
      (getnam_r env db name (startSize env db) s).2
      (getnam_r env db name (startSize env db) s).1
    refine ⟨⟨db.call name (startSize env db),
      (env.getnam_r db s name (startSize env db)).errorCode, s.euid, s.egid⟩ :: new, ?_, ?_⟩
    · rw [hun0, checkReply_fst, hst, getnam_r_frame]
      simp
    · intro e he
      rcases List.mem_cons.mp he with h | h
      · exact ⟨_, by rw [h]⟩
      · obtain ⟨z, hz, _⟩ := hcap e h
        exact ⟨z, hz⟩

/-- The shape of the state `initialize` leaves, whatever its outcome: the effective ids
and the privileged statics are those it started with, the trace has grown by lookups
of the group name followed by lookups of the user name, and a field of the normal
identity whose name is empty is untouched and has no lookup. -/
theorem initialize_shape (fuel : Nat) (env : Env) (userName groupName : String) (s : State) :
    ∃ gid uid newG newU,
      ( PrivilegeHelper.initialize fuel env userName groupName s).1
        = { s with s_normalGid := gid, s_normalUid := uid, trace := s.trace ++ (newG ++ newU) } ∧
      (∀ e ∈ newG, ∃ z, e.call = Call.getgrnam_r groupName z) ∧
      (∀ e ∈ newU, ∃ z, e.call = Call.getpwnam_r userName z) ∧
      (groupName.isEmpty = true → gid = s.s_normalGid ∧ newG = []) ∧
      (userName.isEmpty = true → uid = s.s_normalUid ∧ newU = []) := by
  have user : ∀ s1 : State, ∃ uid newU,
      (if (!userName.isEmpty) = true then
          match resolve fuel env Db.passwd userName s1 with
          | (s', Result.ok uid) => (({ s' with s_normalUid := uid } : State), Result.ok ())
          | (s', Result.threw e) => (s', Result.threw e)
          | (s', Result.running) => (s', Result.running)
        else (s1, Result.ok ())).1
        = { s1 with s_normalUid := uid, trace := s1.trace ++ newU } ∧
      (∀ e ∈ newU, ∃ z, e.call = Call.getpwnam_r userName z) ∧
      (userName.isEmpty = true → uid = s1.s_normalUid ∧ newU = []) := by
    intro s1
    cases hu : userName.isEmpty with
    | true => exact ⟨s1.s_normalUid, [], by simp, by simp, fun _ => ⟨rfl, rfl⟩⟩
    | false =>
      obtain ⟨new, hst, hc⟩ := resolve_calls fuel env Db.passwd userName s1
      rcases hr : resolve fuel env Db.passwd userName s1 with ⟨su, ru⟩
      rw [hr] at hst
      simp only at hst
      subst hst
      cases ru with
      | ok uid => exact ⟨uid, new, by simp, hc, by simp⟩
      | threw e => exact ⟨s1.s_normalUid, new, by simp, hc, by simp⟩
      | running => exact ⟨s1.s_normalUid, new, by simp, hc, by simp⟩
  unfold PrivilegeHelper.initialize
  cases hs : env.HAVE_PRIVILEGE_DROP_AND_ELEVATE with
  | false =>
    refine ⟨s.s_normalGid, s.s_normalUid, [], [], ?_, by simp, by simp, by simp, by simp⟩
    simp only [Bool.false_eq_true, if_false]
    split_ifs <;> simp
  | true =>
    simp only [if_true]
    cases hg : groupName.isEmpty with
    | true =>
      obtain ⟨uid, newU, h1, h2, h3⟩ := user s
      refine ⟨s.s_normalGid, uid, [], newU, ?_, by simp, h2, by simp, h3⟩
      simp only [Bool.not_true, Bool.false_eq_true, if_false]
      rw [h1]
      simp
    | false =>
      obtain ⟨newG, hst, hc⟩ := resolve_calls fuel env Db.group groupName s
      rcases hr : resolve fuel env Db.group groupName s with ⟨sg, rg⟩
      rw [hr] at hst
      simp only at hst
      subst hst
      simp only [Bool.not_false, if_true]
      cases rg with
      | ok gid =>
        obtain ⟨uid, newU, h1, h2, h3⟩ := user
          { s with s_normalGid := gid, trace := s.trace ++ newG }
        refine ⟨gid, uid, newG, newU, ?_, hc, h2, by simp, h3⟩
        simp only
        rw [h1]
        simp
      | threw e =>
        exact ⟨s.s_normalGid, s.s_normalUid, newG, [], by simp, hc, by simp, by simp, by simp⟩
      | running =>
        exact ⟨s.s_normalGid, s.s_normalUid, newG, [], by simp, hc, by simp, by simp, by simp⟩

/-- C11. `initialize` changes the normal identity field by field, on every platform
and whatever its outcome: with an empty group name `s_normalGid` keeps its value and
no call made is a `getgrnam_r`; with an empty user name `s_normalUid` keeps its value
and no call made is a `getpwnam_r`. `initialize("", "")` returns in the state it was
called in, so a normal identity equal to the privileged identity, as it is at process
start, is still equal to it. -/
theorem initialize_field_by_field (fuel : Nat) (env : Env) (userName groupName : String)
    (s : State) :
    (groupName.isEmpty = true →
      ( PrivilegeHelper.initialize fuel env userName groupName s).1.s_normalGid
        = s.s_normalGid ∧
      ∀ e ∈ ( PrivilegeHelper.initialize fuel env userName groupName s).1.trace.drop
          s.trace.length, ∀ name z, e.call ≠ Call.getgrnam_r name z) ∧
    (userName.isEmpty = true →
      ( PrivilegeHelper.initialize fuel env userName groupName s).1.s_normalUid
        = s.s_normalUid ∧
      ∀ e ∈ ( PrivilegeHelper.initialize fuel env userName groupName s).1.trace.drop
          s.trace.length, ∀ name z, e.call ≠ Call.getpwnam_r name z) ∧
    PrivilegeHelper.initialize fuel env "" "" s = (s, Result.ok ()) ∧
    (s.s_normalUid = s.s_privilegedUid → s.s_normalGid = s.s_privilegedGid →
      ( PrivilegeHelper.initialize fuel env "" "" s).1.s_normalUid
        = ( PrivilegeHelper.initialize fuel env "" "" s).1.s_privilegedUid ∧
      ( PrivilegeHelper.initialize fuel env "" "" s).1.s_normalGid
        = ( PrivilegeHelper.initialize fuel env "" "" s).1.s_privilegedGid) ∧
    (∀ uid gid,
      ( PrivilegeHelper.initialize fuel env "" "" (State.atStart uid gid)).1.s_normalUid = uid ∧
      ( PrivilegeHelper.initialize fuel env "" "" (State.atStart uid gid)).1.s_normalGid = gid ∧
      ( PrivilegeHelper.initialize fuel env "" "" (State.atStart uid gid)).1.s_privilegedUid
        = uid ∧
      ( PrivilegeHelper.initialize fuel env "" "" (State.atStart uid gid)).1.s_privilegedGid
        = gid) := by
  have he : ("".isEmpty) = true := by decide
  have hempty : ∀ t : State, PrivilegeHelper.initialize fuel env "" "" t = (t, Result.ok ()) := by
    intro t
    unfold PrivilegeHelper.initialize
    cases env.HAVE_PRIVILEGE_DROP_AND_ELEVATE <;> simp [he]
  obtain ⟨gid, uid, newG, newU, hst, hcG, hcU, hG, hU⟩ :=
    initialize_shape fuel env userName groupName s
  refine ⟨fun hg => ?_, fun hu => ?_, hempty s, fun h1 h2 => ?_, fun uid gid => ?_⟩
  · obtain ⟨h1, h2⟩ := hG hg
    subst h1 h2
    rw [hst]
    refine ⟨rfl, ?_⟩
    intro e he name z hcall
    simp only [List.nil_append, List.drop_left] at he
    obtain ⟨z', hz'⟩ := hcU e he
    rw [hz'] at hcall
    exact Call.noConfusion hcall
  · obtain ⟨h1, h2⟩ := hU hu
    subst h1 h2
    rw [hst]
    refine ⟨rfl, ?_⟩
    intro e he name z hcall
    simp only [List.append_nil, List.drop_left] at he
    obtain ⟨z', hz'⟩ := hcG e he
    rw [hz'] at hcall
    exact Call.noConfusion hcall
  · rw [hempty s]; exact ⟨h1, h2⟩
  · rw [hempty]; exact ⟨rfl, rfl, rfl, rfl⟩

/-- C11 at a concrete input: root calls `initialize("daemon", "")`; the group id of the
normal identity stays 0 and the one call made is a `getpwnam_r`. -/
theorem initialize_field_by_field_witness :
    ( PrivilegeHelper.initialize 0 daemonEnv "daemon" "" (State.atStart 0 0)).1.s_normalGid = 0 ∧
    (∀ e ∈ ( PrivilegeHelper.initialize 0 daemonEnv "daemon" "" (State.atStart 0 0)).1.trace.drop
        (State.atStart 0 0).trace.length, ∀ name z, e.call ≠ Call.getgrnam_r name z) ∧
    ( PrivilegeHelper.initialize 0 daemonEnv "daemon" "" (State.atStart 0 0)).1.trace
      = [⟨Call.getpwnam_r "daemon" 1024, 0, 0, 0⟩] :=
  ⟨((initialize_field_by_field 0 daemonEnv "daemon" "" (State.atStart 0 0)).1 (by decide)).1,
    ((initialize_field_by_field 0 daemonEnv "daemon" "" (State.atStart 0 0)).1 (by decide)).2,
    by decide⟩

/-- C12. In `initialize` with both names non-empty, when the group block resolves to
`g` and the user block that follows throws `e`, `initialize` throws that same `e`;
`s_normalGid` is `g`, `s_normalUid` has its old value, and in the trace every lookup of
the group name comes before every lookup of the user name. -/
theorem initialize_group_kept_when_user_fails (fuel : Nat) (env : Env)
    (userName groupName : String) (s sg su : State) (g : Nat) (e : Error)
    (hs : env.HAVE_PRIVILEGE_DROP_AND_ELEVATE = true)
    (hgn : groupName.isEmpty = false) (hun : userName.isEmpty = false)
    (hG : resolve fuel env Db.group groupName s = (sg, Result.ok g))
    (hU : resolve fuel env Db.passwd userName { sg with s_normalGid := g }
      = (su, Result.threw e)) :
    PrivilegeHelper.initialize fuel env userName groupName s = (su, Result.threw e) ∧
    su.s_normalGid = g ∧ su.s_normalUid = s.s_normalUid ∧
    ∃ newG newU, sg.trace = s.trace ++ newG ∧ su.trace = s.trace ++ (newG ++ newU) ∧
      (∀ ev ∈ newG, ∃ z, ev.call = Call.getgrnam_r groupName z) ∧
      (∀ ev ∈ newU, ∃ z, ev.call = Call.getpwnam_r userName z) := by
  have hi : PrivilegeHelper.initialize fuel env userName groupName s
      = (su, Result.threw e) := by
    simp [ PrivilegeHelper.initialize, hs, hgn, hun, hG, hU]
  obtain ⟨newG, hstG, hcG⟩ := resolve_calls fuel env Db.group groupName s
  obtain ⟨newU, hstU, hcU⟩ :=
    resolve_calls fuel env Db.passwd userName { sg with s_normalGid := g }
  rw [hG] at hstG
  rw [hU] at hstU
  simp only at hstG hstU
  subst hstG
  subst hstU
  exact ⟨hi, rfl, rfl, newG, newU, rfl, by simp, hcG, hcU⟩

/-- C12 at a concrete input: root calls `initialize("nobody", "daemon")` where the
group "daemon" is group 1 and no user "nobody" exists. -/
theorem initialize_group_kept_when_user_fails_witness :
    ( PrivilegeHelper.initialize 0 daemonEnv "nobody" "daemon" (State.atStart 0 0)).2
      = Result.threw (Error.getUid "nobody") ∧
    ( PrivilegeHelper.initialize 0 daemonEnv "nobody" "daemon" (State.atStart 0 0)).1.s_normalGid
      = 1 ∧
    ( PrivilegeHelper.initialize 0 daemonEnv "nobody" "daemon" (State.atStart 0 0)).1.s_normalUid
      = 0 :=
  have h := initialize_group_kept_when_user_fails 0 daemonEnv "nobody" "daemon"
    (State.atStart 0 0)
    (resolve 0 daemonEnv Db.group "daemon" (State.atStart 0 0)).1
    (resolve 0 daemonEnv Db.passwd "nobody"
      { (resolve 0 daemonEnv Db.group "daemon" (State.atStart 0 0)).1 with s_normalGid := 1 }).1
    1 (Error.getUid "nobody") (by decide) (by decide) (by decide) (by decide) (by decide)
  ⟨by rw [h.1], by rw [h.1]; exact h.2.1, by rw [h.1]; exact h.2.2.1⟩

/-! ## A name that does not resolve -/

theorem State.trace_append_nil (s : State) :
    ({ s with trace := s.trace ++ [] } : State) = s := by
  simp

theorem checkReply_not_found (db : Db) (name : String) (t : State) (r : LookupReply)
    (h : r.errorCode ≠ 0 ∨ r.result = none) :
    (checkReply db name (t, Result.ok r)).2 = Result.threw (db.lookupError name) := by
  simp only [checkReply]
  by_cases h0 : r.errorCode = 0
  · rcases h with h | h
    · exact absurd h0 h
    · simp [h0, h]
  · simp [h0]

/-- The loop of lines 72-79 / 100-107 seen through the replies of the platform: when
the reply it starts from is not `ERANGE` it makes no lookup and exits with that reply;
and when one of its own lookups is answered by something else than `ERANGE`, that
lookup is its last and the loop exits with that answer. The answer to a lookup is the
one the platform gives in the state the lookup is made in: the state the loop started
in, with the earlier lookups added to the trace. -/
theorem growLoop_reply_at (env : Env) (db : Db) (name : String) (fuel : Nat) :
    ∀ (size : Nat) (reply : LookupReply) (s : State),
      ∃ new, (growLoop env db name fuel size reply s).1 = { s with trace := s.trace ++ new } ∧
        (∀ ev ∈ new, ∃ z, ev.call = db.call name z) ∧
        (reply.errorCode ≠ ERANGE →
          new = [] ∧ (growLoop env db name fuel size reply s).2 = Result.ok reply) ∧
        (∀ pre e post z, new = pre ++ e :: post → e.call = db.call name z →
          (env.getnam_r db { s with trace := s.trace ++ pre } name z).errorCode ≠ ERANGE →
          post = [] ∧
          (growLoop env db name fuel size reply s).2
            = Result.ok (env.getnam_r db { s with trace := s.trace ++ pre } name z)) := by
  induction fuel with
  | zero =>
    intro size reply s
    refine ⟨[], ?_, by simp, ?_, by simp⟩
    · unfold growLoop; split_ifs <;> simp
    · intro h
      refine ⟨rfl, ?_⟩
      unfold growLoop
      simp [h]
  | succ n ih =>
    intro size reply s
    by_cases h1 : reply.errorCode = ERANGE
    · by_cases h2 : size * 2 % SIZE_T_MOD > db.MAX_BUFFER_SIZE
      · refine ⟨[], ?_, by simp, fun h => absurd h1 h, by simp⟩
        unfold growLoop; simp [h1, h2]
      · have hun : growLoop env db name (n + 1) size reply s
            = growLoop env db name n (size * 2 % SIZE_T_MOD)
                (getnam_r env db name (size * 2 % SIZE_T_MOD) s).2
                (getnam_r env db name (size * 2 % SIZE_T_MOD) s).1 := by
          rw [growLoop]
          simp [h1, h2]
        obtain ⟨new, hst, hcalls, hnow, hlater⟩ := ih (size * 2 % SIZE_T_MOD)
          (getnam_r env db name (size * 2 % SIZE_T_MOD) s).2
          (getnam_r env db name (size * 2 % SIZE_T_MOD) s).1
        refine ⟨⟨db.call name (size * 2 % SIZE_T_MOD),
          (env.getnam_r db s name (size * 2 % SIZE_T_MOD)).errorCode, s.euid, s.egid⟩ :: new,
          ?_, ?_, fun h => absurd h1 h, ?_⟩
        · rw [hun, hst, getnam_r_frame]
          simp
        · intro ev hev
          rcases List.mem_cons.mp hev with h | h
          · exact ⟨_, by rw [h]⟩
          · exact hcalls ev h
        · intro pre e post z hsplit hcall hne
          rw [hun]
          cases pre with
          | nil =>
            simp only [List.nil_append, List.cons.injEq] at hsplit
            obtain ⟨he, hpost⟩ := hsplit
            subst he
            have hzz : z = size * 2 % SIZE_T_MOD := (Db.call_inj db name _ _ hcall).symm
            subst hzz
            rw [State.trace_append_nil] at hne ⊢
            have := hnow hne
            exact ⟨by rw [← hpost]; exact this.1, this.2⟩
          | cons p pre' =>
            simp only [List.cons_append, List.cons.injEq] at hsplit
            obtain ⟨hp, hrest⟩ := hsplit
            subst hp
            have hstate : ({ (getnam_r env db name (size * 2 % SIZE_T_MOD) s).1 with
                trace := (getnam_r env db name (size * 2 % SIZE_T_MOD) s).1.trace ++ pre' }
                  : State)
                = { s with trace := s.trace ++ (⟨db.call name (size * 2 % SIZE_T_MOD),
                    (env.getnam_r db s name (size * 2 % SIZE_T_MOD)).errorCode,
                    s.euid, s.egid⟩ :: pre') } := by
              rw [getnam_r_frame]
              simp
            have key := hlater pre' e post z hrest hcall
            rw [hstate] at key
            exact key hne
    · refine ⟨[], ?_, by simp, fun _ => ⟨rfl, ?_⟩, by simp⟩
      · unfold growLoop; simp [h1]
      · unfold growLoop; simp [h1]

/-- A resolution seen through the replies of the platform: every call it records is a
lookup of its name, and when one of them is answered, in the state it is made in, by
neither `ERANGE` nor an entry, that lookup is the last and the resolution throws the
lookup error. -/
theorem resolve_reply_at (fuel : Nat) (env : Env) (db : Db) (name : String) (s : State) :
    ∃ new, (resolve fuel env db name s).1 = { s with trace := s.trace ++ new } ∧
      (∀ ev ∈ new, ∃ z, ev.call = db.call name z) ∧
      (∀ pre e post z, new = pre ++ e :: post → e.call = db.call name z →
        (env.getnam_r db { s with trace := s.trace ++ pre } name z).errorCode ≠ ERANGE →
        ((env.getnam_r db { s with trace := s.trace ++ pre } name z).errorCode ≠ 0 ∨
          (env.getnam_r db { s with trace := s.trace ++ pre } name z).result = none) →
        post = [] ∧
        (resolve fuel env db name s).2 = Result.threw (db.lookupError name)) := by
  obtain ⟨err, herr, hr⟩ | ⟨hv, hun⟩ := resolve_cases fuel env db name s
  · exact ⟨[], by simp [hr], by simp, by simp⟩
  · obtain ⟨new, hst, hcalls, hnow, hlater⟩ := growLoop_reply_at env db name fuel
      (startSize env db) (getnam_r env db name (startSize env db) s).2
      (getnam_r env db name (startSize env db) s).1
    refine ⟨⟨db.call name (startSize env db),
      (env.getnam_r db s name (startSize env db)).errorCode, s.euid, s.egid⟩ :: new,
      ?_, ?_, ?_⟩
    · rw [hun, checkReply_fst, hst, getnam_r_frame]
      simp
    · intro ev hev
      rcases List.mem_cons.mp hev with h | h
      · exact ⟨_, by rw [h]⟩
      · exact hcalls ev h
    · intro pre e post z hsplit hcall hne hnf
      rw [hun]
      cases pre with
      | nil =>
        simp only [List.nil_append, List.cons.injEq] at hsplit
        obtain ⟨he, hpost⟩ := hsplit
        subst he
        have hzz : z = startSize env db := (Db.call_inj db name _ _ hcall).symm
        subst hzz
        rw [State.trace_append_nil] at hne hnf
        have := hnow hne
        refine ⟨by rw [← hpost]; exact this.1, ?_⟩
        have hp : growLoop env db name fuel (startSize env db)
            (getnam_r env db name (startSize env db) s).2
            (getnam_r env db name (startSize env db) s).1
            = ((growLoop env db name fuel (startSize env db)
                (getnam_r env db name (startSize env db) s).2
                (getnam_r env db name (startSize env db) s).1).1,
              Result.ok (getnam_r env db name (startSize env db) s).2) := by
          rw [← this.2]
        rw [hp]
        exact checkReply_not_found db name _ _ hnf
      | cons p pre' =>
        simp only [List.cons_append, List.cons.injEq] at hsplit
        obtain ⟨hp, hrest⟩ := hsplit
        subst hp
        have hstate : ({ (getnam_r env db name (startSize env db) s).1 with
            trace := (getnam_r env db name (startSize env db) s).1.trace ++ pre' } : State)
            = { s with trace := s.trace ++ (⟨db.call name (startSize env db),
                (env.getnam_r db s name (startSize env db)).errorCode,
                s.euid, s.egid⟩ :: pre') } := by
          rw [getnam_r_frame]
          simp
        have key := hlater pre' e post z hrest hcall
        rw [hstate] at key
        have := key hne
        refine ⟨this.1, ?_⟩
        have hp : growLoop env db name fuel (startSize env db)
            (getnam_r env db name (startSize env db) s).2
            (getnam_r env db name (startSize env db) s).1
            = ((growLoop env db name fuel (startSize env db)
                (getnam_r env db name (startSize env db) s).2
                (getnam_r env db name (startSize env db) s).1).1,
              Result.ok (env.getnam_r db
                { s with trace := s.trace ++ (⟨db.call name (startSize env db),
                  (env.getnam_r db s name (startSize env db)).errorCode,
                  s.euid, s.egid⟩ :: pre') } name z)) := by
          rw [← this.2]
        rw [hp]
        exact checkReply_not_found db name _ _ hnf

/-- The two blocks of `initialize` on a platform with privilege transitions: the state
it leaves is the one it started in with the two fields of the normal identity possibly
written and the trace grown by the group lookups followed by the user lookups. A group
lookup answered by neither `ERANGE` nor an entry is the last call made, nothing is
written and the group's lookup error is thrown; a user lookup answered so is the last
call made, the user id is not written and the user's lookup error is thrown. -/
theorem initialize_blocks (fuel : Nat) (env : Env) (userName groupName : String) (s : State)
    (hs : env.HAVE_PRIVILEGE_DROP_AND_ELEVATE = true) :
    ∃ gid uid newG newU,
      ( PrivilegeHelper.initialize fuel env userName groupName s).1
        = { s with s_normalGid := gid, s_normalUid := uid, trace := s.trace ++ (newG ++ newU) } ∧
      (∀ ev ∈ newG, ∃ z, ev.call = Call.getgrnam_r groupName z) ∧
      (∀ ev ∈ newU, ∃ z, ev.call = Call.getpwnam_r userName z) ∧
      (∀ pre e post z, newG = pre ++ e :: post → e.call = Call.getgrnam_r groupName z →
        (env.getgrnam_r { s with trace := s.trace ++ pre } groupName z).errorCode ≠ ERANGE →
        ((env.getgrnam_r { s with trace := s.trace ++ pre } groupName z).errorCode ≠ 0 ∨
          (env.getgrnam_r { s with trace := s.trace ++ pre } groupName z).result = none) →
        post = [] ∧ newU = [] ∧ gid = s.s_normalGid ∧ uid = s.s_normalUid ∧
        ( PrivilegeHelper.initialize fuel env userName groupName s).2
          = Result.threw (Error.getGid groupName)) ∧
      (∀ pre e post z, newU = pre ++ e :: post → e.call = Call.getpwnam_r userName z →
        (env.getpwnam_r { s with s_normalGid := gid, trace := s.trace ++ (newG ++ pre) }
          userName z).errorCode ≠ ERANGE →
        ((env.getpwnam_r { s with s_normalGid := gid, trace := s.trace ++ (newG ++ pre) }
            userName z).errorCode ≠ 0 ∨
          (env.getpwnam_r { s with s_normalGid := gid, trace := s.trace ++ (newG ++ pre) }
            userName z).result = none) →
        post = [] ∧ uid = s.s_normalUid ∧
        ( PrivilegeHelper.initialize fuel env userName groupName s).2
          = Result.threw (Error.getUid userName)) := by
  have user : ∀ s1 : State, ∃ uid newU,
      (if (!userName.isEmpty) = true then
          match resolve fuel env Db.passwd userName s1 with
          | (s', Result.ok uid) => (({ s' with s_normalUid := uid } : State), Result.ok ())
          | (s', Result.threw e) => (s', Result.threw e)
          | (s', Result.running) => (s', Result.running)
        else (s1, Result.ok ())).1
        = { s1 with s_normalUid := uid, trace := s1.trace ++ newU } ∧
      (∀ ev ∈ newU, ∃ z, ev.call = Call.getpwnam_r userName z) ∧
      (∀ pre e post z, newU = pre ++ e :: post → e.call = Call.getpwnam_r userName z →
        (env.getpwnam_r { s1 with trace := s1.trace ++ pre } userName z).errorCode ≠ ERANGE →
        ((env.getpwnam_r { s1 with trace := s1.trace ++ pre } userName z).errorCode ≠ 0 ∨
          (env.getpwnam_r { s1 with trace := s1.trace ++ pre } userName z).result = none) →
        post = [] ∧ uid = s1.s_normalUid ∧
        (if (!userName.isEmpty) = true then
          match resolve fuel env Db.passwd userName s1 with
          | (s', Result.ok uid) => (({ s' with s_normalUid := uid } : State), Result.ok ())
          | (s', Result.threw e) => (s', Result.threw e)
          | (s', Result.running) => (s', Result.running)
        else (s1, Result.ok ())).2 = Result.threw (Error.getUid userName)) := by
    intro s1
    cases hu : userName.isEmpty with
    | true => exact ⟨s1.s_normalUid, [], by simp, by simp, by simp⟩
    | false =>
      obtain ⟨new, hst, hc, hR⟩ := resolve_reply_at fuel env Db.passwd userName s1
      rcases hr : resolve fuel env Db.passwd userName s1 with ⟨su, ru⟩
      rw [hr] at hst hR
      simp only at hst
      subst hst
      cases ru with
      | ok uid =>
        refine ⟨uid, new, by simp, hc, ?_⟩
        intro pre e post z hsplit hcall hne hnf
        have := (hR pre e post z hsplit hcall hne hnf).2
        simp at this
      | threw err =>
        refine ⟨s1.s_normalUid, new, by simp, hc, ?_⟩
        intro pre e post z hsplit hcall hne hnf
        have := hR pre e post z hsplit hcall hne hnf
        refine ⟨this.1, rfl, ?_⟩
        simpa using this.2
      | running =>
        refine ⟨s1.s_normalUid, new, by simp, hc, ?_⟩
        intro pre e post z hsplit hcall hne hnf
        have := (hR pre e post z hsplit hcall hne hnf).2
        simp at this
  unfold PrivilegeHelper.initialize
  simp only [hs, if_true]
  cases hg : groupName.isEmpty with
  | true =>
    obtain ⟨uid, newU, h1, h2, h3⟩ := user s
    refine ⟨s.s_normalGid, uid, [], newU, ?_, by simp, h2, by simp, ?_⟩
    · simp only [Bool.not_true, Bool.false_eq_true, if_false]
      rw [h1]
      simp
    · intro pre e post z hsplit hcall hne hnf
      simp only [Bool.not_true, Bool.false_eq_true, if_false]
      simp only [List.nil_append] at hne hnf
      exact h3 pre e post z hsplit hcall hne hnf
  | false =>
    obtain ⟨newG, hst, hc, hR⟩ := resolve_reply_at fuel env Db.group groupName s
    rcases hr : resolve fuel env Db.group groupName s with ⟨sg, rg⟩
    rw [hr] at hst hR
    simp only at hst
    subst hst
    simp only [Bool.not_false, if_true]
    cases rg with
    | ok gid =>
      obtain ⟨uid, newU, h1, h2, h3⟩ := user
        { s with s_normalGid := gid, trace := s.trace ++ newG }
      refine ⟨gid, uid, newG, newU, ?_, hc, h2, ?_, ?_⟩
      · simp only
        rw [h1]
        simp
      · intro pre e post z hsplit hcall hne hnf
        have := (hR pre e post z hsplit hcall hne hnf).2
        simp at this
      · intro pre e post z hsplit hcall hne hnf
        simp only
        simp only [← List.append_assoc] at hne hnf
        exact h3 pre e post z hsplit hcall hne hnf
    | threw err =>
      refine ⟨s.s_normalGid, s.s_normalUid, newG, [], by simp, hc, by simp, ?_, by simp⟩
      intro pre e post z hsplit hcall hne hnf
      have := hR pre e post z hsplit hcall hne hnf
      refine ⟨this.1, rfl, rfl, rfl, ?_⟩
      simpa using this.2
    | running =>
      refine ⟨s.s_normalGid, s.s_normalUid, newG, [], by simp, hc, by simp, ?_, by simp⟩
      intro pre e post z hsplit hcall hne hnf
      have := (hR pre e post z hsplit hcall hne hnf).2
      simp at this

/-- C13. Let `e` be any call `initialize` made, `pre` the calls it made before and
`post` those after. If `e` is a lookup of the
group name that the platform answers, in the state it is made in, by neither `ERANGE`
nor an entry (a non-zero error code, or 0 with a null result), whether at the first
try or after retries, then `e` is the last call, `initialize` throws the group's lookup
error, a `LookupError`, both fields of the normal identity are unchanged and no call
made is a `getpwnam_r`. If `e` is a lookup of the user name answered so, then `e` is
the last call, `initialize` throws the user's lookup error, a `LookupError`, and
`s_normalUid` is unchanged. -/
theorem initialize_unresolved_name (fuel : Nat) (env : Env) (userName groupName : String)
    (s : State) (pre post : List Event) (e : Event) (z : Nat)
    (htrace : ( PrivilegeHelper.initialize fuel env userName groupName s).1.trace
      = s.trace ++ (pre ++ e :: post)) :
    (e.call = Call.getgrnam_r groupName z →
      (env.getgrnam_r { s with trace := s.trace ++ pre } groupName z).errorCode ≠ ERANGE →
      ((env.getgrnam_r { s with trace := s.trace ++ pre } groupName z).errorCode ≠ 0 ∨
        (env.getgrnam_r { s with trace := s.trace ++ pre } groupName z).result = none) →
      post = [] ∧
      ( PrivilegeHelper.initialize fuel env userName groupName s).2
        = Result.threw (Error.getGid groupName) ∧
      (Error.getGid groupName).kind = ErrorKind.LookupError ∧
      ( PrivilegeHelper.initialize fuel env userName groupName s).1.s_normalGid
        = s.s_normalGid ∧
      ( PrivilegeHelper.initialize fuel env userName groupName s).1.s_normalUid
        = s.s_normalUid ∧
      ∀ ev ∈ pre ++ e :: post, ∀ name z', ev.call ≠ Call.getpwnam_r name z') ∧
    (e.call = Call.getpwnam_r userName z →
      (env.getpwnam_r
        { ( PrivilegeHelper.initialize fuel env userName groupName s).1 with
          s_normalUid := s.s_normalUid, trace := s.trace ++ pre }
        userName z).errorCode ≠ ERANGE →
      ((env.getpwnam_r
          { ( PrivilegeHelper.initialize fuel env userName groupName s).1 with
            s_normalUid := s.s_normalUid, trace := s.trace ++ pre }
          userName z).errorCode ≠ 0 ∨
        (env.getpwnam_r
          { ( PrivilegeHelper.initialize fuel env userName groupName s).1 with
            s_normalUid := s.s_normalUid, trace := s.trace ++ pre }
          userName z).result = none) →
      post = [] ∧
      ( PrivilegeHelper.initialize fuel env userName groupName s).2
        = Result.threw (Error.getUid userName) ∧
      (Error.getUid userName).kind = ErrorKind.LookupError ∧
      ( PrivilegeHelper.initialize fuel env userName groupName s).1.s_normalUid
        = s.s_normalUid) := by
  have hs : env.HAVE_PRIVILEGE_DROP_AND_ELEVATE = true := by
    cases hf : env.HAVE_PRIVILEGE_DROP_AND_ELEVATE with
    | true => rfl
    | false =>
      exfalso
      have hsame : ( PrivilegeHelper.initialize fuel env userName groupName s).1 = s := by
        unfold PrivilegeHelper.initialize
        cases userName.isEmpty <;> cases groupName.isEmpty <;> simp [hf]
      rw [hsame] at htrace
      have := congrArg List.length htrace
      simp at this
  obtain ⟨gid, uid, newG, newU, hst, hcG, hcU, hFG, hFU⟩ :=
    initialize_blocks fuel env userName groupName s hs
  rw [hst] at htrace ⊢
  simp only at htrace ⊢
  have hsplit : newG ++ newU = pre ++ e :: post := List.append_cancel_left htrace
  rcases List.append_eq_append_iff.mp hsplit with ⟨a', hpre, hU⟩ | ⟨c', hG, hcons⟩
  · -- `e` is one of the user lookups
    have heU : e ∈ newU := by rw [hU]; simp
    constructor
    · intro hcall
      obtain ⟨z', hz'⟩ := hcU e heU
      rw [hz'] at hcall
      exact Call.noConfusion hcall
    · intro hcall hne hnf
      subst hpre
      have := hFU a' e post z hU hcall hne hnf
      exact ⟨this.1, this.2.2, rfl, this.2.1⟩
  · cases c' with
    | nil =>
      -- `e` is the first of the user lookups
      simp only [List.nil_append] at hcons
      simp only [List.append_nil] at hG
      have heU : e ∈ newU := by rw [← hcons]; simp
      constructor
      · intro hcall
        obtain ⟨z', hz'⟩ := hcU e heU
        rw [hz'] at hcall
        exact Call.noConfusion hcall
      · intro hcall hne hnf
        subst hG
        have := hFU [] e post z hcons.symm hcall
          (by simpa using hne) (by simpa using hnf)
        exact ⟨this.1, this.2.2, rfl, this.2.1⟩
    | cons c c'' =>
      -- `e` is one of the group lookups
      simp only [List.cons_append, List.cons.injEq] at hcons
      obtain ⟨hec, hpost⟩ := hcons
      subst hec
      have heG : e ∈ newG := by rw [hG]; simp
      constructor
      · intro hcall hne hnf
        have := hFG pre e c'' z hG hcall hne hnf
        obtain ⟨h1, h2, h3, h4, h5⟩ := this
        subst h1 h2
        simp only [List.nil_append] at hpost
        refine ⟨hpost, h5, rfl, h3, h4, ?_⟩
        intro ev hev name z' hc
        rw [hpost] at hev
        have hev' : ev ∈ newG := by rw [hG]; exact hev
        obtain ⟨z'', hz''⟩ := hcG ev hev'
        rw [hz''] at hc
        exact Call.noConfusion hc
      · intro hcall
        obtain ⟨z', hz'⟩ := hcG e heG
        rw [hz'] at hcall
        exact Call.noConfusion hcall

/-- C13 at concrete inputs. From the 1024-byte fallback, on a platform where no name
exists and a lookup needs 2000 bytes to say so, `initialize("daemon", "daemon")` throws
the group's lookup error after a retry, with nothing written and no user lookup. On
`daemonEnv`, where the group "daemon" is group 1 and no user "nobody" exists,
`initialize("nobody", "daemon")` throws the user's lookup error with `s_normalUid`
unchanged. -/
theorem initialize_unresolved_name_witness :
    (( PrivilegeHelper.initialize 1 (noEntryEnv (-1) 2000) "daemon" "daemon"
        (State.atStart 0 0)).2 = Result.threw (Error.getGid "daemon") ∧
      ( PrivilegeHelper.initialize 1 (noEntryEnv (-1) 2000) "daemon" "daemon"
        (State.atStart 0 0)).1.s_normalGid = 0 ∧
      ( PrivilegeHelper.initialize 1 (noEntryEnv (-1) 2000) "daemon" "daemon"
        (State.atStart 0 0)).1.s_normalUid = 0 ∧
      ( PrivilegeHelper.initialize 1 (noEntryEnv (-1) 2000) "daemon" "daemon"
        (State.atStart 0 0)).1.trace
        = [⟨Call.getgrnam_r "daemon" 1024, ERANGE, 0, 0⟩,
            ⟨Call.getgrnam_r "daemon" 2048, 0, 0, 0⟩]) ∧
    (( PrivilegeHelper.initialize 0 daemonEnv "nobody" "daemon" (State.atStart 0 0)).2
        = Result.threw (Error.getUid "nobody") ∧
      ( PrivilegeHelper.initialize 0 daemonEnv "nobody" "daemon"
        (State.atStart 0 0)).1.s_normalUid = 0) :=
  have hg := (initialize_unresolved_name 1 (noEntryEnv (-1) 2000) "daemon" "daemon"
    (State.atStart 0 0) [⟨Call.getgrnam_r "daemon" 1024, ERANGE, 0, 0⟩] []
    ⟨Call.getgrnam_r "daemon" 2048, 0, 0, 0⟩ 2048 (by decide)).1 rfl (by decide)
    (Or.inr (by decide))
  have hu := (initialize_unresolved_name 0 daemonEnv "nobody" "daemon"
    (State.atStart 0 0) [⟨Call.getgrnam_r "daemon" 1024, 0, 0, 0⟩] []
    ⟨Call.getpwnam_r "nobody" 1024, 0, 0, 0⟩ 1024 (by decide)).2 rfl (by decide)
    (Or.inr (by decide))
  ⟨⟨hg.2.1, hg.2.2.2.1, hg.2.2.2.2.1, by decide⟩, ⟨hu.2.1, hu.2.2.2⟩⟩

/-! ## The platform without privilege transitions, and what no operation writes -/

/-- C14. On a platform without privilege transitions, `initialize(userName, groupName)`
throws the not-supported error, an `UnsupportedPlatformError`, exactly when one of the
two names is non-empty, and returns exactly when both are empty; it never changes the
state. `drop()` and `raise()` return in the state they were called in, for every state:
they make no call and change no id. -/
theorem unsupported_platform (fuel : Nat) (env : Env) (userName groupName : String)
    (s : State) (hs : env.HAVE_PRIVILEGE_DROP_AND_ELEVATE = false) :
    (( PrivilegeHelper.initialize fuel env userName groupName s).2
        = Result.threw Error.notSupported ↔
      (userName.isEmpty = false ∨ groupName.isEmpty = false)) ∧
    (( PrivilegeHelper.initialize fuel env userName groupName s).2 = Result.ok () ↔
      (userName.isEmpty = true ∧ groupName.isEmpty = true)) ∧
    Error.notSupported.kind = ErrorKind.UnsupportedPlatformError ∧
    ( PrivilegeHelper.initialize fuel env userName groupName s).1 = s ∧
    PrivilegeHelper.drop env s = (s, Result.ok ()) ∧
    PrivilegeHelper.raise env s = (s, Result.ok ()) := by
  refine ⟨?_, ?_, rfl, ?_, drop_unsupported env s hs, raise_unsupported env s hs⟩
  · unfold PrivilegeHelper.initialize
    cases userName.isEmpty <;> cases groupName.isEmpty <;> simp [hs]
  · unfold PrivilegeHelper.initialize
    cases userName.isEmpty <;> cases groupName.isEmpty <;> simp [hs]
  · unfold PrivilegeHelper.initialize
    cases userName.isEmpty <;> cases groupName.isEmpty <;> simp [hs]

/-- C14 at the scenario of the specification: on a platform without privilege
transitions `initialize("daemon", "")` throws and `initialize("", "")` returns. -/
theorem unsupported_platform_witness :
    ( PrivilegeHelper.initialize 0 unsupportedEnv "daemon" "" rootState).2
      = Result.threw Error.notSupported ∧
    ( PrivilegeHelper.initialize 0 unsupportedEnv "" "" rootState).2 = Result.ok () ∧
    PrivilegeHelper.drop unsupportedEnv rootState = (rootState, Result.ok ()) ∧
    PrivilegeHelper.raise unsupportedEnv rootState = (rootState, Result.ok ()) :=
  ⟨(unsupported_platform 0 unsupportedEnv "daemon" "" rootState rfl).1.mpr
      (Or.inl (by decide)),
    (unsupported_platform 0 unsupportedEnv "" "" rootState rfl).2.1.mpr
      ⟨by decide, by decide⟩,
    (unsupported_platform 0 unsupportedEnv "" "" rootState rfl).2.2.2.2.1,
    (unsupported_platform 0 unsupportedEnv "" "" rootState rfl).2.2.2.2.2⟩

/-- A `drop()` or `raise()` writes nothing but the effective ids and the trace. -/
theorem Op.run_shape (env : Env) (op : Op) (t : State) :
    ∃ uid gid new,
      (op.run env t).1 = { t with euid := uid, egid := gid, trace := t.trace ++ new } := by
  have stay : ∀ r : Result Unit, (t, r).1
      = { t with euid := t.euid, egid := t.egid, trace := t.trace ++ [] } := by
    intro r; simp
  cases op with
  | drop =>
    simp only [Op.run]
    cases hs : env.HAVE_PRIVILEGE_DROP_AND_ELEVATE with
    | false => rw [drop_unsupported env t hs]; exact ⟨_, _, [], stay _⟩
    | true =>
      by_cases hn : t.euid = t.s_normalUid ∧ t.egid = t.s_normalGid
      · rw [drop_noop env t hn.1 hn.2]; exact ⟨_, _, [], stay _⟩
      · cases hg : env.setegidOk t t.s_normalGid with
        | false => rw [drop_gid_refused env t hs hn hg]; exact ⟨t.euid, t.egid, _, rfl⟩
        | true =>
          cases hu : env.seteuidOk (setegid env t.s_normalGid t).1 t.s_normalUid with
          | false =>
            rw [drop_uid_refused env t hs hn hg hu]; exact ⟨t.euid, t.s_normalGid, _, rfl⟩
          | true =>
            rw [drop_permitted env t hs hn hg hu]
            exact ⟨t.s_normalUid, t.s_normalGid, _, rfl⟩
  | raise =>
    simp only [Op.run]
    cases hs : env.HAVE_PRIVILEGE_DROP_AND_ELEVATE with
    | false => rw [raise_unsupported env t hs]; exact ⟨_, _, [], stay _⟩
    | true =>
      by_cases hn : t.euid = t.s_privilegedUid ∧ t.egid = t.s_privilegedGid
      · rw [raise_noop env t hn.1 hn.2]; exact ⟨_, _, [], stay _⟩
      · cases hu : env.seteuidOk t t.s_privilegedUid with
        | false => rw [raise_uid_refused env t hs hn hu]; exact ⟨t.euid, t.egid, _, rfl⟩
        | true =>
          cases hg : env.setegidOk (seteuid env t.s_privilegedUid t).1 t.s_privilegedGid with
          | false =>
            rw [raise_gid_refused env t hs hn hu hg]
            exact ⟨t.s_privilegedUid, t.egid, _, rfl⟩
          | true =>
            rw [raise_permitted env t hs hn hu hg]
            exact ⟨t.s_privilegedUid, t.s_privilegedGid, _, rfl⟩

/-- No operation writes the privileged statics. -/
theorem Action.run_privileged (env : Env) (a : Action) (t : State) :
    (a.run env t).1.s_privilegedUid = t.s_privilegedUid ∧
    (a.run env t).1.s_privilegedGid = t.s_privilegedGid := by
  cases a with
  | init fuel userName groupName =>
    obtain ⟨gid, uid, newG, newU, h, _⟩ := initialize_shape fuel env userName groupName t
    simp only [Action.run]
    rw [h]
    exact ⟨rfl, rfl⟩
  | drop =>
    obtain ⟨uid, gid, new, h⟩ := Op.run_shape env Op.drop t
    simp only [Op.run] at h
    simp only [Action.run]
    rw [h]
    exact ⟨rfl, rfl⟩
  | raise =>
    obtain ⟨uid, gid, new, h⟩ := Op.run_shape env Op.raise t
    simp only [Op.run] at h
    simp only [Action.run]
    rw [h]
    exact ⟨rfl, rfl⟩

theorem runActions_privileged (env : Env) (acts : List Action) :
    ∀ t : State, (runActions env acts t).s_privilegedUid = t.s_privilegedUid ∧
      (runActions env acts t).s_privilegedGid = t.s_privilegedGid := by
  induction acts with
  | nil => intro t; exact ⟨rfl, rfl⟩
  | cons a rest ih =>
    intro t
    simp only [runActions]
    obtain ⟨h1, h2⟩ := ih (a.run env t).1
    obtain ⟨h3, h4⟩ := Action.run_privileged env a t
    exact ⟨h1.trans h3, h2.trans h4⟩

/-- C15. The recorded privileged identity is an invariant: on every platform, in every
state and whatever the outcome (returned, threw, or a loop still running), after
`initialize`, after `drop()` and after `raise()` both `s_privilegedUid` and
`s_privilegedGid` have the value they had before; hence after any sequence of the three
operations from process start they are the ids the process started with. -/
theorem privileged_identity_invariant (fuel : Nat) (env : Env) (userName groupName : String)
    (s : State) :
    (( PrivilegeHelper.initialize fuel env userName groupName s).1.s_privilegedUid
        = s.s_privilegedUid ∧
      ( PrivilegeHelper.initialize fuel env userName groupName s).1.s_privilegedGid
        = s.s_privilegedGid) ∧
    ((PrivilegeHelper.drop env s).1.s_privilegedUid = s.s_privilegedUid ∧
      (PrivilegeHelper.drop env s).1.s_privilegedGid = s.s_privilegedGid) ∧
    ((PrivilegeHelper.raise env s).1.s_privilegedUid = s.s_privilegedUid ∧
      (PrivilegeHelper.raise env s).1.s_privilegedGid = s.s_privilegedGid) ∧
    (∀ (acts : List Action) (uid gid : Nat),
      (runActions env acts (State.atStart uid gid)).s_privilegedUid = uid ∧
      (runActions env acts (State.atStart uid gid)).s_privilegedGid = gid) :=
  ⟨Action.run_privileged env (Action.init fuel userName groupName) s,
    Action.run_privileged env Action.drop s,
    Action.run_privileged env Action.raise s,
    fun acts uid gid => runActions_privileged env acts (State.atStart uid gid)⟩

/-- C16. `initialize` changes no process identity: on every platform, for every pair of
names, every lookup behaviour and every outcome, the effective user id and the
effective group id after the call are those before it, and no call it made is a
`setegid` or a `seteuid`. -/
theorem initialize_changes_no_identity (fuel : Nat) (env : Env)
    (userName groupName : String) (s : State) :
    ( PrivilegeHelper.initialize fuel env userName groupName s).1.euid = s.euid ∧
    ( PrivilegeHelper.initialize fuel env userName groupName s).1.egid = s.egid ∧
    ∀ e ∈ ( PrivilegeHelper.initialize fuel env userName groupName s).1.trace.drop
        s.trace.length, ∀ id, e.call ≠ Call.setegid id ∧ e.call ≠ Call.seteuid id := by
  obtain ⟨gid, uid, newG, newU, hst, hcG, hcU, _, _⟩ :=
    initialize_shape fuel env userName groupName s
  rw [hst]
  refine ⟨rfl, rfl, ?_⟩
  intro e he id
  simp only [List.drop_left] at he
  rcases List.mem_append.mp he with h | h
  · obtain ⟨z, hz⟩ := hcG e h
    rw [hz]
    exact ⟨fun hc => Call.noConfusion hc, fun hc => Call.noConfusion hc⟩
  · obtain ⟨z, hz⟩ := hcU e h
    rw [hz]
    exact ⟨fun hc => Call.noConfusion hc, fun hc => Call.noConfusion hc⟩

/-! ## How many lookups a resolution makes -/

/-- A non-empty list of events all of whose members but the last returned `ERANGE`, the
last one not: its length is one more than the number of `ERANGE` returns. -/
theorem length_of_last_not_erange (L : List Event) (hne : L ≠ [])
    (hinit : ∀ e ∈ L.dropLast, e.ret = ERANGE)
    (hlast : ∀ e ∈ L.getLast?, e.ret ≠ ERANGE) :
    L.length = 1 + L.countP (fun e => decide (e.ret = ERANGE)) := by
  have hsplit := List.dropLast_append_getLast hne
  have hl : (L.getLast hne).ret ≠ ERANGE :=
    hlast _ (by rw [List.getLast?_eq_getLast _ hne]; exact rfl)
  have hc : L.dropLast.countP (fun e => decide (e.ret = ERANGE)) = L.dropLast.length :=
    List.countP_eq_length.mpr (fun e he => by simpa using hinit e he)
  conv_lhs => rw [← hsplit]
  conv_rhs => rw [← hsplit]
  rw [List.countP_append, hc, List.length_append]
  simp [hl]
  omega

/-- A list of events all of whose members, the last included, returned `ERANGE`. -/
theorem all_erange_of_last_erange (L : List Event)
    (hinit : ∀ e ∈ L.dropLast, e.ret = ERANGE)
    (hlast : ∀ e ∈ L.getLast?, e.ret = ERANGE) :
    ∀ e ∈ L, e.ret = ERANGE := by
  by_cases hne : L = []
  · subst hne; simp
  · intro e he
    rw [← List.dropLast_append_getLast hne] at he
    rcases List.mem_append.mp he with h | h
    · exact hinit e h
    · have : e = L.getLast hne := by simpa using h
      subst this
      exact hlast _ (by rw [List.getLast?_eq_getLast _ hne]; exact rfl)

/-- In a list whose members but the last all returned `ERANGE`, a member that did not
is the last one. -/
theorem nothing_after_non_erange (L pre post : List Event) (e : Event)
    (hinit : ∀ ev ∈ L.dropLast, ev.ret = ERANGE)
    (hsplit : L = pre ++ e :: post) (he : e.ret ≠ ERANGE) : post = [] := by
  by_contra hpost
  apply he
  apply hinit
  rw [hsplit, List.dropLast_append_of_ne_nil _ (List.cons_ne_nil e post),
    List.dropLast_cons_of_ne_nil hpost]
  simp

/-- The loop of lines 72-79 / 100-107 seen through what its lookups return, `e0` being
the lookup whose reply it starts from: every lookup but the last returned `ERANGE`; the
loop exits normally exactly when the last lookup did not return `ERANGE`, and otherwise
has thrown the buffer error or is still running. -/
theorem growLoop_retries (env : Env) (db : Db) (name : String) (fuel : Nat) :
    ∀ (size : Nat) (reply : LookupReply) (s : State) (e0 : Event),
      e0.ret = reply.errorCode →
      ∃ new, (growLoop env db name fuel size reply s).1 = { s with trace := s.trace ++ new } ∧
        (∀ e ∈ (e0 :: new).dropLast, e.ret = ERANGE) ∧
        ((((growLoop env db name fuel size reply s).2 = Result.running ∨
            (growLoop env db name fuel size reply s).2 = Result.threw db.bufferError) ∧
            ∀ e ∈ (e0 :: new).getLast?, e.ret = ERANGE) ∨
          ((∃ r, (growLoop env db name fuel size reply s).2 = Result.ok r) ∧
            ∀ e ∈ (e0 :: new).getLast?, e.ret ≠ ERANGE)) := by
  induction fuel with
  | zero =>
    intro size reply s e0 h0
    refine ⟨[], ?_, by simp, ?_⟩
    · unfold growLoop; split_ifs <;> simp
    · by_cases h1 : reply.errorCode = ERANGE
      · left
        refine ⟨?_, by simpa [h0] using h1⟩
        unfold growLoop
        by_cases h2 : size * 2 % SIZE_T_MOD > db.MAX_BUFFER_SIZE <;> simp [h1, h2]
      · right
        refine ⟨⟨reply, ?_⟩, by simpa [h0] using h1⟩
        unfold growLoop
        simp [h1]
  | succ n ih =>
    intro size reply s e0 h0
    by_cases h1 : reply.errorCode = ERANGE
    · by_cases h2 : size * 2 % SIZE_T_MOD > db.MAX_BUFFER_SIZE
      · refine ⟨[], ?_, by simp, Or.inl ⟨Or.inr ?_, by simpa [h0] using h1⟩⟩
        · unfold growLoop; simp [h1, h2]
        · unfold growLoop; simp [h1, h2]
      · have hun : growLoop env db name (n + 1) size reply s
            = growLoop env db name n (size * 2 % SIZE_T_MOD)
                (getnam_r env db name (size * 2 % SIZE_T_MOD) s).2
                (getnam_r env db name (size * 2 % SIZE_T_MOD) s).1 := by
          rw [growLoop]
          simp [h1, h2]
        obtain ⟨new, hst, hinit, hlast⟩ := ih (size * 2 % SIZE_T_MOD)
          (getnam_r env db name (size * 2 % SIZE_T_MOD) s).2
          (getnam_r env db name (size * 2 % SIZE_T_MOD) s).1
          ⟨db.call name (size * 2 % SIZE_T_MOD),
            (env.getnam_r db s name (size * 2 % SIZE_T_MOD)).errorCode, s.euid, s.egid⟩ rfl
        refine ⟨⟨db.call name (size * 2 % SIZE_T_MOD),
          (env.getnam_r db s name (size * 2 % SIZE_T_MOD)).errorCode, s.euid, s.egid⟩ :: new,
          ?_, ?_, ?_⟩
        · rw [hun, hst, getnam_r_frame]
          simp
        · intro e he
          rw [List.dropLast_cons₂] at he
          rcases List.mem_cons.mp he with h | h
          · rw [h, h0]; exact h1
          · exact hinit e h
        · rw [hun, List.getLast?_cons_cons]
          exact hlast
    · refine ⟨[], ?_, by simp, Or.inr ⟨⟨reply, ?_⟩, by simpa [h0] using h1⟩⟩
      · unfold growLoop; simp [h1]
      · unfold growLoop; simp [h1]

theorem checkReply_of_running (db : Db) (name : String) (p : State × Result LookupReply)
    (h : p.2 = Result.running) : (checkReply db name p).2 = Result.running := by
  obtain ⟨s, r⟩ := p
  simp only at h
  subst h
  rfl

theorem checkReply_of_ok (db : Db) (name : String) (p : State × Result LookupReply)
    (r : LookupReply) (h : p.2 = Result.ok r) :
    (∃ id, (checkReply db name p).2 = Result.ok id) ∨
      (checkReply db name p).2 = Result.threw (db.lookupError name) := by
  obtain ⟨s, q⟩ := p
  simp only at h
  subst h
  simp only [checkReply]
  split_ifs
  · exact Or.inr rfl
  · cases r.result with
    | none => exact Or.inr rfl
    | some id => exact Or.inl ⟨id, rfl⟩

theorem Db.lookupError_ne_bufferError (db : Db) (name : String) :
    db.lookupError name ≠ db.bufferError := by
  cases db <;> simp [Db.lookupError, Db.bufferError]

/-- C17, amended. The loop retries only on `ERANGE`: in the lookups of one resolution,
whatever they answer, nothing follows a lookup that returned anything but `ERANGE`.
When the resolution ends with an id or with the lookup error, the number of lookups is
one plus the number of `ERANGE` returns; when it throws the buffer error at the cap
(or is still running) every lookup returned `ERANGE` and the number of lookups equals
the number of `ERANGE` returns. -/
theorem resolve_retries_only_on_erange (fuel : Nat) (env : Env) (db : Db) (name : String)
    (s : State) :
    ∃ new, (resolve fuel env db name s).1 = { s with trace := s.trace ++ new } ∧
      (∀ pre e post, new = pre ++ e :: post → e.ret ≠ ERANGE → post = []) ∧
      (((∃ id, (resolve fuel env db name s).2 = Result.ok id) ∨
          (resolve fuel env db name s).2 = Result.threw (db.lookupError name)) →
        new.length = 1 + new.countP (fun e => decide (e.ret = ERANGE))) ∧
      (((resolve fuel env db name s).2 = Result.threw db.bufferError ∨
          (resolve fuel env db name s).2 = Result.running) →
        (∀ e ∈ new, e.ret = ERANGE) ∧
        new.length = new.countP (fun e => decide (e.ret = ERANGE))) := by
  obtain ⟨err, herr, hr⟩ | ⟨hv, hun0⟩ := resolve_cases fuel env db name s
  · refine ⟨[], by simp [hr], by simp, ?_, ?_⟩
    · rw [hr]
      rintro (⟨id, h⟩ | h)
      · simp at h
      · rcases herr with rfl | rfl <;> cases db <;> simp [Db.lookupError] at h
    · rw [hr]
      rintro (h | h)
      · rcases herr with rfl | rfl <;> cases db <;> simp [Db.bufferError] at h
      · simp at h
  · have hun : resolve fuel env db name s
        = checkReply db name (growLoop env db name fuel (startSize env db)
            (getnam_r env db name (startSize env db) s).2
            (getnam_r env db name (startSize env db) s).1) := hun0
    obtain ⟨new, hst, hinit, hlast⟩ := growLoop_retries env db name fuel (startSize env db)
      (getnam_r env db name (startSize env db) s).2
      (getnam_r env db name (startSize env db) s).1
      ⟨db.call name (startSize env db),
        (env.getnam_r db s name (startSize env db)).errorCode, s.euid, s.egid⟩ rfl
    refine ⟨⟨db.call name (startSize env db),
      (env.getnam_r db s name (startSize env db)).errorCode, s.euid, s.egid⟩ :: new,
      ?_, ?_, ?_, ?_⟩
    · rw [hun, checkReply_fst, hst, getnam_r_frame]
      simp
    · intro pre e post hsplit he
      exact nothing_after_non_erange _ pre post e hinit hsplit he
    · intro hres
      rcases hlast with ⟨hout, hl⟩ | ⟨⟨r, hout⟩, hl⟩
      · exfalso
        rw [hun] at hres
        rcases hout with h | h
        · rw [checkReply_of_running _ _ _ h] at hres
          rcases hres with ⟨id, h'⟩ | h' <;> simp at h'
        · rw [checkReply_threw _ _ _ _ h] at hres
          rcases hres with ⟨id, h'⟩ | h'
          · simp at h'
          · exact Db.lookupError_ne_bufferError db name (Result.threw.inj h').symm
      · exact length_of_last_not_erange _ (List.cons_ne_nil _ _) hinit hl
    · intro hres
      rcases hlast with ⟨_, hl⟩ | ⟨⟨r, hout⟩, _⟩
      · have hall := all_erange_of_last_erange _ hinit hl
        refine ⟨hall, ?_⟩
        exact (List.countP_eq_length.mpr (fun e he => by simpa using hall e he)).symm
      · exfalso
        rw [hun] at hres
        rcases checkReply_of_ok db name _ r hout with ⟨id, h⟩ | h
        · rw [h] at hres
          rcases hres with h' | h' <;> simp at h'
        · rw [h] at hres
          rcases hres with h' | h'
          · exact Db.lookupError_ne_bufferError db name (Result.threw.inj h')
          · simp at h'

/-- C17 as stated fails: from the 1024-byte fallback with every lookup answered
`ERANGE`, `initialize("", "daemon")` makes five lookups and receives five `ERANGE`
results, not four. -/
theorem lookups_equal_erange_results_at_cap :
    ( PrivilegeHelper.initialize 4 (alwaysErangeEnv (-1)) "" "daemon"
        (State.atStart 0 0)).1.trace.length = 5 ∧
    ( PrivilegeHelper.initialize 4 (alwaysErangeEnv (-1)) "" "daemon"
        (State.atStart 0 0)).1.trace.countP (fun e => decide (e.ret = ERANGE)) = 5 ∧
    ( PrivilegeHelper.initialize 4 (alwaysErangeEnv (-1)) "" "daemon"
        (State.atStart 0 0)).1.trace.length
      ≠ 1 + ( PrivilegeHelper.initialize 4 (alwaysErangeEnv (-1)) "" "daemon"
        (State.atStart 0 0)).1.trace.countP (fun e => decide (e.ret = ERANGE)) := by
  decide

/-- C17 at a concrete input: from the 1024-byte fallback, with an entry that needs
3000 bytes, the resolution makes three lookups after two `ERANGE` results. -/
theorem resolve_retries_only_on_erange_witness :
    (resolve 2 (thresholdEnv (-1) 3000 7) Db.group "daemon" (State.atStart 0 0)).1.trace.length
      = 1 + (resolve 2 (thresholdEnv (-1) 3000 7) Db.group "daemon"
          (State.atStart 0 0)).1.trace.countP (fun e => decide (e.ret = ERANGE)) := by
  obtain ⟨new, hst, _, h, _⟩ :=
    resolve_retries_only_on_erange 2 (thresholdEnv (-1) 3000 7) Db.group "daemon"
      (State.atStart 0 0)
  have hres : (resolve 2 (thresholdEnv (-1) 3000 7) Db.group "daemon"
      (State.atStart 0 0)).2 = Result.ok 7 := by decide
  rw [hst]
  simpa [State.atStart] using h (Or.inl ⟨7, hres⟩)

/-! ## The fallback size with a lookup that never fits -/

theorem growLoop_step (env : Env) (db : Db) (name : String) (fuel size : Nat)
    (reply : LookupReply) (s : State)
    (h1 : reply.errorCode = ERANGE) (h2 : size * 2 ≤ db.MAX_BUFFER_SIZE) :
    growLoop env db name (fuel + 1) size reply s
      = growLoop env db name fuel (size * 2)
          (getnam_r env db name (size * 2) s).2 (getnam_r env db name (size * 2) s).1 := by
  have hmod : size * 2 % SIZE_T_MOD = size * 2 := by
    rw [Db.MAX_BUFFER_SIZE_eq] at h2
    apply Nat.mod_eq_of_lt
    unfold SIZE_T_MOD
    omega
  rw [growLoop]
  simp only [h1, if_true, hmod, if_neg (Nat.not_lt.mpr h2)]

theorem growLoop_stop (env : Env) (db : Db) (name : String) (fuel size : Nat)
    (reply : LookupReply) (s : State)
    (h1 : reply.errorCode = ERANGE) (hv : size ≤ VECTOR_MAX_SIZE)
    (h2 : db.MAX_BUFFER_SIZE < size * 2) :
    growLoop env db name fuel size reply s = (s, Result.threw db.bufferError) := by
  have h3 : size * 2 % SIZE_T_MOD > db.MAX_BUFFER_SIZE := by
    rw [double_mod_of_le_vector_max _ hv]; exact h2
  unfold growLoop
  simp [h1, h3]

/-- C18. When `sysconf` reports -1 the resolution starts at the 1024-byte fallback; if
every lookup of the name then answers `ERANGE`, and at least four loop iterations are
allowed, exactly five lookups are made, at 1024, 2048, 4096, 8192 and 16384 bytes in
that order, and the resolution throws the buffer error, a `BufferAllocationError`;
`initialize` throws it with nothing changed but the trace: there is no sixth lookup,
no lookup of a user name after a failed group, and the normal identity is as before. -/
theorem fallback_five_lookups (fuel : Nat) (env : Env) (db : Db) (name : String) (s : State)
    (hsys : env.sysconf db = -1)
    (hall : ∀ t z, (env.getnam_r db t name z).errorCode = ERANGE)
    (hfuel : 4 ≤ fuel) :
    startSize env db = 1024 ∧
    resolve fuel env db name s
      = ({ s with trace := s.trace ++
            [⟨db.call name 1024, ERANGE, s.euid, s.egid⟩,
              ⟨db.call name 2048, ERANGE, s.euid, s.egid⟩,
              ⟨db.call name 4096, ERANGE, s.euid, s.egid⟩,
              ⟨db.call name 8192, ERANGE, s.euid, s.egid⟩,
              ⟨db.call name 16384, ERANGE, s.euid, s.egid⟩] },
          Result.threw db.bufferError) ∧
    db.bufferError.kind = ErrorKind.BufferAllocationError ∧
    (env.HAVE_PRIVILEGE_DROP_AND_ELEVATE = true → name.isEmpty = false →
      (db = Db.group → ∀ userName,
        PrivilegeHelper.initialize fuel env userName name s
          = ({ s with trace := s.trace ++
                [⟨Call.getgrnam_r name 1024, ERANGE, s.euid, s.egid⟩,
                  ⟨Call.getgrnam_r name 2048, ERANGE, s.euid, s.egid⟩,
                  ⟨Call.getgrnam_r name 4096, ERANGE, s.euid, s.egid⟩,
                  ⟨Call.getgrnam_r name 8192, ERANGE, s.euid, s.egid⟩,
                  ⟨Call.getgrnam_r name 16384, ERANGE, s.euid, s.egid⟩] },
              Result.threw Error.groupBuffer)) ∧
      (db = Db.passwd →
        PrivilegeHelper.initialize fuel env name "" s
          = ({ s with trace := s.trace ++
                [⟨Call.getpwnam_r name 1024, ERANGE, s.euid, s.egid⟩,
                  ⟨Call.getpwnam_r name 2048, ERANGE, s.euid, s.egid⟩,
                  ⟨Call.getpwnam_r name 4096, ERANGE, s.euid, s.egid⟩,
                  ⟨Call.getpwnam_r name 8192, ERANGE, s.euid, s.egid⟩,
                  ⟨Call.getpwnam_r name 16384, ERANGE, s.euid, s.egid⟩] },
              Result.threw Error.passwdBuffer))) := by
  have hstart : startSize env db = 1024 := by
    unfold startSize
    rw [hsys]
    cases db <;> decide
  have hM := Db.MAX_BUFFER_SIZE_eq db
  have hreply : ∀ z t, (getnam_r env db name z t).2.errorCode = ERANGE := fun z t => hall t z
  have hstate : ∀ z t, (getnam_r env db name z t).1
      = { t with trace := t.trace ++ [⟨db.call name z, ERANGE, t.euid, t.egid⟩] } := by
    intro z t
    rw [getnam_r_frame, hall]
  obtain ⟨f, rfl⟩ : ∃ f, fuel = f + 4 := ⟨fuel - 4, by omega⟩
  have hres : resolve (f + 4) env db name s
      = ({ s with trace := s.trace ++
            [⟨db.call name 1024, ERANGE, s.euid, s.egid⟩,
              ⟨db.call name 2048, ERANGE, s.euid, s.egid⟩,
              ⟨db.call name 4096, ERANGE, s.euid, s.egid⟩,
              ⟨db.call name 8192, ERANGE, s.euid, s.egid⟩,
              ⟨db.call name 16384, ERANGE, s.euid, s.egid⟩] },
          Result.threw db.bufferError) := by
    rw [resolve_of_le_max _ _ _ _ _ (by rw [hstart, hM]; decide)]
    simp only [hstart]
    rw [growLoop_step env db name (f + 3) 1024 _ _ (hreply _ _) (by simp [hM]),
      growLoop_step env db name (f + 2) (1024 * 2) _ _ (hreply _ _) (by simp [hM]),
      growLoop_step env db name (f + 1) (1024 * 2 * 2) _ _ (hreply _ _) (by simp [hM]),
      growLoop_step env db name f (1024 * 2 * 2 * 2) _ _ (hreply _ _) (by simp [hM]),
      growLoop_stop env db name f (1024 * 2 * 2 * 2 * 2) _ _ (hreply _ _) (by decide)
        (by simp [hM])]
    simp only [hstate, checkReply]
    simp
  have hkind : db.bufferError.kind = ErrorKind.BufferAllocationError := by
    cases db <;> rfl
  have he : ("".isEmpty) = true := by decide
  refine ⟨hstart, hres, hkind, fun hs hne => ⟨fun hdb userName => ?_, fun hdb => ?_⟩⟩
  · subst hdb
    simp only [ PrivilegeHelper.initialize, hs, hne, if_true, Bool.not_false]
    rw [hres]
    rfl
  · subst hdb
    simp only [ PrivilegeHelper.initialize, hs, hne, he, if_true, Bool.not_false,
      Bool.not_true, Bool.false_eq_true, if_false]
    rw [hres]
    rfl

/-- C18 at a concrete input: root calls `initialize("daemon", "daemon")` on a platform
whose `sysconf` reports -1 and whose lookups all answer `ERANGE`. -/
theorem fallback_five_lookups_witness :
    PrivilegeHelper.initialize 4 (alwaysErangeEnv (-1)) "daemon" "daemon" (State.atStart 0 0)
      = ({ State.atStart 0 0 with trace :=
            [⟨Call.getgrnam_r "daemon" 1024, ERANGE, 0, 0⟩,
              ⟨Call.getgrnam_r "daemon" 2048, ERANGE, 0, 0⟩,
              ⟨Call.getgrnam_r "daemon" 4096, ERANGE, 0, 0⟩,
              ⟨Call.getgrnam_r "daemon" 8192, ERANGE, 0, 0⟩,
              ⟨Call.getgrnam_r "daemon" 16384, ERANGE, 0, 0⟩] },
          Result.threw Error.groupBuffer) :=
  ((fallback_five_lookups 4 (alwaysErangeEnv (-1)) Db.group "daemon" (State.atStart 0 0)
    rfl (fun _ _ => rfl) (by decide)).2.2.2 rfl (by decide)).1 rfl "daemon"

/-! ## Recovery from the partial failure of `drop` -/

/-- C19. On a platform with privilege transitions where every set-id call is permitted,
from the effective identity (privileged user id, normal group id): `raise()` returns
with the effective identity equal to the privileged identity, and when the two group
ids differ it does so by its two calls, `seteuid` then `setegid`, not by the early
return; a retried `drop()` returns with the effective identity equal to the normal
identity. -/
theorem partial_drop_recoverable (env : Env) (s : State)
    (hs : env.HAVE_PRIVILEGE_DROP_AND_ELEVATE = true)
    (heu : s.euid = s.s_privilegedUid) (heg : s.egid = s.s_normalGid)
    (hgid : ∀ t id, env.setegidOk t id = true)
    (huid : ∀ t id, env.seteuidOk t id = true) :
    (PrivilegeHelper.raise env s).2 = Result.ok () ∧
    (PrivilegeHelper.raise env s).1.euid = s.s_privilegedUid ∧
    (PrivilegeHelper.raise env s).1.egid = s.s_privilegedGid ∧
    (s.s_normalGid ≠ s.s_privilegedGid →
      (PrivilegeHelper.raise env s).1.trace
        = s.trace ++ [⟨Call.seteuid s.s_privilegedUid, 0, s.s_privilegedUid, s.s_normalGid⟩,
            ⟨Call.setegid s.s_privilegedGid, 0, s.s_privilegedUid, s.s_privilegedGid⟩]) ∧
    (PrivilegeHelper.drop env s).2 = Result.ok () ∧
    (PrivilegeHelper.drop env s).1.euid = s.s_normalUid ∧
    (PrivilegeHelper.drop env s).1.egid = s.s_normalGid := by
  have hraise : (PrivilegeHelper.raise env s).2 = Result.ok () ∧
      (PrivilegeHelper.raise env s).1.euid = s.s_privilegedUid ∧
      (PrivilegeHelper.raise env s).1.egid = s.s_privilegedGid := by
    by_cases hp : s.euid = s.s_privilegedUid ∧ s.egid = s.s_privilegedGid
    · rw [raise_noop env s hp.1 hp.2]; exact ⟨rfl, hp.1, hp.2⟩
    · rw [raise_permitted env s hs hp (huid _ _) (hgid _ _)]; exact ⟨rfl, rfl, rfl⟩
  have hdrop : (PrivilegeHelper.drop env s).2 = Result.ok () ∧
      (PrivilegeHelper.drop env s).1.euid = s.s_normalUid ∧
      (PrivilegeHelper.drop env s).1.egid = s.s_normalGid := by
    by_cases hn : s.euid = s.s_normalUid ∧ s.egid = s.s_normalGid
    · rw [drop_noop env s hn.1 hn.2]; exact ⟨rfl, hn.1, hn.2⟩
    · rw [drop_permitted env s hs hn (hgid _ _) (huid _ _)]; exact ⟨rfl, rfl, rfl⟩
  have _ := heu
  refine ⟨hraise.1, hraise.2.1, hraise.2.2, fun hne => ?_, hdrop⟩
  have hp : ¬ (s.euid = s.s_privilegedUid ∧ s.egid = s.s_privilegedGid) :=
    fun h => hne (heg.symm.trans h.2)
  rw [raise_permitted env s hs hp (huid _ _) (hgid _ _)]
  simp [heg]

/-- C19 at a concrete input: root's `drop()` to (1, 1) is refused at the user step, which
leaves user 0 in group 1; from there `raise()` gives (0, 0) and a retried `drop()`
gives (1, 1). -/
theorem partial_drop_recoverable_witness :
    (PrivilegeHelper.drop (daemonEnvWith (fun _ _ => true) (fun _ _ => false)) rootState).2
      = Result.threw (Error.dropUid 1) ∧
    (PrivilegeHelper.raise daemonEnv
      (PrivilegeHelper.drop (daemonEnvWith (fun _ _ => true) (fun _ _ => false))
        rootState).1).1.euid = 0 ∧
    (PrivilegeHelper.raise daemonEnv
      (PrivilegeHelper.drop (daemonEnvWith (fun _ _ => true) (fun _ _ => false))
        rootState).1).1.egid = 0 ∧
    (PrivilegeHelper.drop daemonEnv
      (PrivilegeHelper.drop (daemonEnvWith (fun _ _ => true) (fun _ _ => false))
        rootState).1).1.euid = 1 ∧
    (PrivilegeHelper.drop daemonEnv
      (PrivilegeHelper.drop (daemonEnvWith (fun _ _ => true) (fun _ _ => false))
        rootState).1).1.egid = 1 :=
  have h := partial_drop_recoverable daemonEnv
    (PrivilegeHelper.drop (daemonEnvWith (fun _ _ => true) (fun _ _ => false)) rootState).1
    rfl (by decide) (by decide) (fun _ _ => rfl) (fun _ _ => rfl)
  ⟨by decide, h.2.1, h.2.2.1, h.2.2.2.2.2.1, h.2.2.2.2.2.2⟩

end nfd
